import Mathlib

/-!
# openvpn-forwarder: routing chain and port map of `main.go`

A shallow embedding of the parts of `main.go` that decide which upstream chain a
destination is dialled through (lines 147-213) and on which ports the proxy
listens (lines 215-252), with the library calls they rest on:

* `net.SplitHostPort` and `strings.Split` / `strings.FieldsFunc` of the Go standard
  library, embedded over lists of characters (all delimiters are ASCII, so byte
  indices and character indices select the same pieces);
* `PerHost` of `golang.org/x/net/proxy` (`NewPerHost`, `AddHost`, `AddZone`,
  `dialerForRequest`, `Dial`);
* `net.ParseIP`, which is taken as a parameter `isIP` (`isIP h = true` stands for
  `net.ParseIP(h) != nil`): every theorem holds for every such function.
-/

namespace Forwarder

/-! ## Go standard library: `net.SplitHostPort`, `strings.Split`, `strings.FieldsFunc` -/

/-- Error value of `net.SplitHostPort`: `&AddrError{Err: why, Addr: addr}`. -/
structure AddrError where
  Err : String
  Addr : String
  deriving DecidableEq, Repr

/-- Index of the first occurrence of `c`, `none` for Go's `-1` (`IndexByteString`). -/
def indexByte (c : Char) : List Char → Option Nat
  | [] => none
  | x :: xs => if x = c then some 0 else (indexByte c xs).map (· + 1)

/-- Index of the last occurrence of `c`, `none` for Go's `-1` (`LastIndexByteString`). -/
def lastIndexByte (c : Char) : List Char → Option Nat
  | [] => none
  | x :: xs =>
    match lastIndexByte c xs with
    | some i => some (i + 1)
    | none => if x = c then some 0 else none

/-- The checks shared by both branches of `net.SplitHostPort`: no `[` from index `j`,
no `]` from index `k`, then `port = hostport[i+1:]`. -/
def splitHostPortTail (hostport : List Char) (host : List Char) (i j k : Nat) :
    Except AddrError (String × String) :=
  if (indexByte '[' (hostport.drop j)).isSome then
    .error ⟨"unexpected '[' in address", String.mk hostport⟩
  else if (indexByte ']' (hostport.drop k)).isSome then
    .error ⟨"unexpected ']' in address", String.mk hostport⟩
  else
    .ok (String.mk host, String.mk (hostport.drop (i + 1)))

/-- Go's `net.SplitHostPort(hostport)`: the port starts after the last colon; a
bracketed host must end right before that colon; an unbracketed host has no colon. -/
def SplitHostPort (hostport : String) : Except AddrError (String × String) :=
  let s := hostport.data
  match lastIndexByte ':' s with
  | none => .error ⟨"missing port in address", hostport⟩
  | some i =>
    if s.head? = some '[' then
      match indexByte ']' s with
      | none => .error ⟨"missing ']' in address", hostport⟩
      | some e =>
        if e + 1 = s.length then .error ⟨"missing port in address", hostport⟩
        else if e + 1 = i then
          splitHostPortTail s ((s.take e).drop 1) i 1 (e + 1)
        else if s.get? (e + 1) = some ':' then
          .error ⟨"too many colons in address", hostport⟩
        else .error ⟨"missing port in address", hostport⟩
    else
      let host := s.take i
      if (indexByte ':' host).isSome then
        .error ⟨"too many colons in address", hostport⟩
      else splitHostPortTail s host i 0 0

/-- Go's `strings.Split(s, sep)` for a one-byte separator, on characters: the pieces
between consecutive separators, one more than there are separators. -/
def splitChars (sep : Char) : List Char → List (List Char)
  | [] => [[]]
  | c :: cs =>
    if c = sep then [] :: splitChars sep cs
    else
      match splitChars sep cs with
      | [] => [[c]]
      | x :: xs => (c :: x) :: xs

/-- Go's `strings.Split(p, ":")`. -/
def Split (p : String) : List String :=
  (splitChars ':' p.data).map String.mk

/-- Go's `strings.FieldsFunc(s, f)` on characters: the maximal runs of characters
that do not satisfy `f`; empty runs are dropped. `cur` is the run being read,
reversed. -/
def fieldsFuncAux (f : Char → Bool) : List Char → List Char → List (List Char)
  | cur, [] => if cur.isEmpty then [] else [cur.reverse]
  | cur, c :: cs =>
    if f c then
      (if cur.isEmpty then fieldsFuncAux f [] cs else cur.reverse :: fieldsFuncAux f [] cs)
    else fieldsFuncAux f (c :: cur) cs

/-- Method `(*flagArray).Set` of `main.go`:
`*flag = strings.FieldsFunc(s, func(c rune) bool { return c == ',' })`. -/
def flagArraySet (s : String) : List String :=
  (fieldsFuncAux (fun c => c == ',') [] s.data).map String.mk

/-! ## The port map (`main.go`, lines 215-252) -/

/-- A Go `map[string]string`, kept as a list of key/value pairs with distinct keys. -/
abbrev PortMap := List (String × String)

/-- The assignment `m[k] = v`: overwrite the value of an existing key, else add it. -/
def PortMap.set : PortMap → String → String → PortMap
  | [], k, v => [(k, v)]
  | (k', v') :: t, k, v => if k' = k then (k, v) :: t else (k', v') :: PortMap.set t k v

/-- The lookup `m[k]`, `none` when the key is absent. -/
def PortMap.get? : PortMap → String → Option String
  | [], _ => none
  | (k', v') :: t, k => if k' = k then some v' else PortMap.get? t k

/-- The keys of the map, what `for p := range portMap` visits. -/
def PortMap.keys (m : PortMap) : List String := m.map Prod.fst

/-- The two error returns of `parsePortMap`. -/
inductive PortMapError where
  /-- The return `errors.Wrap(err, "failed to parse port")`. -/
  | failedToParsePort (err : AddrError)
  /-- The return `errors.Errorf("failed to parse port mapping: %s", p)`. -/
  | failedToParsePortMapping (p : String)
  deriving DecidableEq, Repr

/-- The loop `for _, p := range ports` of `parsePortMap`, with its early return. -/
def parsePortMapLoop : List String → PortMap → Except PortMapError PortMap
  | [], portsMap => .ok portsMap
  | p :: ports, portsMap =>
    match Split p with
    | [l, t] => parsePortMapLoop ports (portsMap.set l t)
    | _ => .error (.failedToParsePortMapping p)

/-- Function `parsePortMap(ports, proxyAddr)` of `main.go`. -/
def parsePortMap (ports : List String) (proxyAddr : String) :
    Except PortMapError PortMap :=
  match SplitHostPort proxyAddr with
  | .error err => .error (.failedToParsePort err)
  | .ok (_, port) => parsePortMapLoop ports [(port, "443")]

/-- The addresses handed to `proxyServer.ListenAndServe` by the loop
`for p := range portMap` of `main` (one goroutine per key): `":" + p`. -/
def listenAddrs (portMap : PortMap) : List String :=
  portMap.keys.map (fun p => ":" ++ p)

/-- Lines 215-231 of `main`: parse the port map, stop on an error (`log.Fatal`),
else listen on every key. -/
def mainListenAddrs (proxyMapPort : List String) (proxyAddr : String) :
    Except PortMapError (List String) :=
  match parsePortMap proxyMapPort proxyAddr with
  | .error err => .error err
  | .ok portMap => .ok (listenAddrs portMap)

/-! ## `golang.org/x/net/proxy`: `PerHost` -/

/-- Go's `strings.HasSuffix(s, suffix)`. -/
def HasSuffix (s suffix : String) : Bool := suffix.data.isSuffixOf s.data

/-- Go's `strings.HasPrefix(s, prefix)`. -/
def HasPrefix (s pre : String) : Bool := pre.data.isPrefixOf s.data

/-- One CONNECT hop: the arguments `forwardAddress, user, pass, country` that
`main` passes to `proxy.NewDialerHTTPConnect`. -/
structure Upstream where
  forwardAddress : String
  user : String
  pass : String
  country : String
  deriving DecidableEq, Repr

/-- The values of the interface `netproxy.Dialer` that `main` builds:
`proxy.DialerDirect`, the result of `proxy.NewDialerHTTPConnect(forwardDialer, ...)`,
and a `*netproxy.PerHost` with its `def`, `bypass`, `bypassZones` and `bypassHosts`
(`bypassNetworks` and `bypassIPs` stay empty: `main` calls neither `AddIP`,
`AddNetwork` nor `AddFromString`). -/
inductive Dialer where
  | direct
  | httpConnect (forwardDialer : Dialer) (up : Upstream)
  | perHost (defaultDialer bypass : Dialer) (bypassZones bypassHosts : List String)
  deriving DecidableEq, Repr

/-- The struct `PerHost` while `main` is still adding rules to it. -/
structure PerHost where
  defaultDialer : Dialer
  bypass : Dialer
  bypassZones : List String
  bypassHosts : List String

/-- `netproxy.NewPerHost(defaultDialer, bypass)`. -/
def NewPerHost (defaultDialer bypass : Dialer) : PerHost :=
  ⟨defaultDialer, bypass, [], []⟩

/-- The step `if strings.HasSuffix(s, ".") { s = s[:len(s)-1] }` of `AddZone` and
`AddHost`: one trailing dot is cut. -/
def trimDot (s : String) : String :=
  if HasSuffix s "." then String.mk s.data.dropLast else s

/-- The zone as `AddZone` stores it: trailing dot cut, then a leading dot added
unless there is one. -/
def storedZone (zone : String) : String :=
  let zone := trimDot zone
  if HasPrefix zone "." then zone else "." ++ zone

/-- `(*PerHost).AddZone(zone)`. -/
def PerHost.AddZone (p : PerHost) (zone : String) : PerHost :=
  { p with bypassZones := p.bypassZones ++ [storedZone zone] }

/-- `(*PerHost).AddHost(host)`: the trailing dot is cut, then the host is stored. -/
def PerHost.AddHost (p : PerHost) (host : String) : PerHost :=
  { p with bypassHosts := p.bypassHosts ++ [trimDot host] }

/-- The `*PerHost` as a `netproxy.Dialer`. -/
def PerHost.toDialer (p : PerHost) : Dialer :=
  .perHost p.defaultDialer p.bypass p.bypassZones p.bypassHosts

/-- The body of the loop over `p.bypassZones` in `dialerForRequest`:
`strings.HasSuffix(host, zone) || host == zone[1:]`. -/
def zoneRule (host zone : String) : Bool :=
  HasSuffix host zone || decide (host = String.mk (zone.data.drop 1))

/-- The decision of `(*PerHost).dialerForRequest(host)`: `true` for `p.bypass`,
`false` for `p.def`. An IP literal is only compared with `bypassNetworks` and
`bypassIPs`, which are empty, so it gets `p.def`; any other host gets `p.bypass`
when a zone rule or an equal stored host is found. -/
def usesBypass (isIP : String → Bool) (bypassZones bypassHosts : List String)
    (host : String) : Bool :=
  if isIP host then false
  else if bypassZones.any (zoneRule host) then true
  else bypassHosts.any (fun bypassHost => decide (bypassHost = host))

/-! ## The dialers of the `proxy` package and the route of a dial -/

/-- Modelled from the spec: `Dial` of the dialers of the package `proxy`, which is
not among the sources. `proxy.DialerDirect` "establishes a raw TCP stream to the
destination, no intermediary": no hop. The dialer of `proxy.NewDialerHTTPConnect`
"holds an owned reference to the underlying dialer it tunnels through": it reaches
its own `forwardAddress` through `forwardDialer` and layers one CONNECT hop on top.
`(*PerHost).Dial` is the library's: split the address, fail when that fails, else
dial through `dialerForRequest(host)`. The result is the ordered list of CONNECT
hops between the client and the destination; the network is taken to answer. -/
def Dial (isIP : String → Bool) : Dialer → String → Except AddrError (List Upstream)
  | .direct, _ => .ok []
  | .httpConnect forwardDialer up, _ =>
    match Dial isIP forwardDialer up.forwardAddress with
    | .error err => .error err
    | .ok hops => .ok (hops ++ [up])
  | .perHost defaultDialer bypass bypassZones bypassHosts, addr =>
    match SplitHostPort addr with
    | .error err => .error err
    | .ok (host, _) =>
      if usesBypass isIP bypassZones bypassHosts host then Dial isIP bypass addr
      else Dial isIP defaultDialer addr

/-! ## The route chain built by `main` (lines 147-213) -/

/-- The flags and parsed URLs that `main` reads while building the dialers:
`upstreamHostN` is `dialerUpstreamURLN.Host`. -/
structure Config where
  upstreamHost1 : String
  proxyUser1 : String
  proxyPass1 : String
  upstreamHost2 : String
  proxyUser2 : String
  proxyPass2 : String
  upstreamHost3 : String
  proxyUser3 : String
  proxyPass3 : String
  proxyCountry : String
  filterHostnames1 : List String
  filterZones1 : List String
  filterHostnames2 : List String
  filterZones2 : List String
  filterHostnames3 : List String
  filterZones3 : List String
  excludeHostnames : List String
  excludeZones : List String

/-- The arguments of the CONNECT hop of tier 1. -/
def Config.up1 (c : Config) : Upstream :=
  ⟨c.upstreamHost1, c.proxyUser1, c.proxyPass1, c.proxyCountry⟩

/-- The arguments of the CONNECT hop of tier 2. -/
def Config.up2 (c : Config) : Upstream :=
  ⟨c.upstreamHost2, c.proxyUser2, c.proxyPass2, c.proxyCountry⟩

/-- The arguments of the CONNECT hop of tier 3. -/
def Config.up3 (c : Config) : Upstream :=
  ⟨c.upstreamHost3, c.proxyUser3, c.proxyPass3, c.proxyCountry⟩

/-- Line 147: `proxy.NewDialerHTTPConnect(proxy.DialerDirect, dialerUpstreamURL3.Host, ...)`. -/
def dialerUpstream3 (c : Config) : Dialer := .httpConnect .direct c.up3

/-- Line 148: `proxy.NewDialerHTTPConnect(proxy.dialerUpstream3, dialerUpstreamURL2.Host, ...)`,
the forward dialer being the `dialerUpstream3` of line 147. -/
def dialerUpstream2 (c : Config) : Dialer := .httpConnect (dialerUpstream3 c) c.up2

/-- Line 149: `proxy.NewDialerHTTPConnect(proxy.dialerUpstream2, dialerUpstreamURL1.Host, ...)`,
the forward dialer being the `dialerUpstream2` of line 148. -/
def dialerUpstream1 (c : Config) : Dialer := .httpConnect (dialerUpstream2 c) c.up1

/-- The two loops that follow each `NewPerHost`: `AddHost` for every hostname, then
`AddZone` for every zone. -/
def addRules (p : PerHost) (hostnames zones : List String) : PerHost :=
  zones.foldl PerHost.AddZone (hostnames.foldl PerHost.AddHost p)

/-- Lines 151-166: `dialer3`. -/
def dialer3 (c : Config) : Dialer :=
  if c.filterHostnames3.length > 0 ∨ c.filterZones3.length > 0 then
    (addRules (NewPerHost .direct (dialerUpstream3 c))
      c.filterHostnames3 c.filterZones3).toDialer
  else dialerUpstream3 c

/-- Lines 168-183: `dialer2`. -/
def dialer2 (c : Config) : Dialer :=
  if c.filterHostnames2.length > 0 ∨ c.filterZones2.length > 0 then
    (addRules (NewPerHost (dialer3 c) (dialerUpstream2 c))
      c.filterHostnames2 c.filterZones2).toDialer
  else dialerUpstream2 c

/-- Lines 185-200: `dialer1` before the exclusions. -/
def dialer1 (c : Config) : Dialer :=
  if c.filterHostnames1.length > 0 ∨ c.filterZones1.length > 0 then
    (addRules (NewPerHost (dialer2 c) (dialerUpstream1 c))
      c.filterHostnames1 c.filterZones1).toDialer
  else dialerUpstream1 c

/-- Lines 202-213: `dialer1` as handed to `proxy.NewServer`. -/
def serverDialer (c : Config) : Dialer :=
  if c.excludeHostnames.length > 0 ∨ c.excludeZones.length > 0 then
    (addRules (NewPerHost (dialer1 c) .direct)
      c.excludeHostnames c.excludeZones).toDialer
  else dialer1 c


/-! ## The notions the routing claims are stated with -/

/-- The decision of the filter that `main` fills from a list of hostnames and a list
of zones (`NewPerHost`, then `AddHost` and `AddZone` for each): `true` when
`dialerForRequest(host)` is the `bypass` dialer. -/
def filterMatches (isIP : String → Bool) (hostnames zones : List String)
    (host : String) : Bool :=
  usesBypass isIP (zones.map storedZone) (hostnames.map trimDot) host

/-- Zone membership as the filters decide it: the zone rule of `dialerForRequest`
on the zone as `AddZone` stores it. -/
def inZone (zone host : String) : Bool := zoneRule host (storedZone zone)

/-- A tier takes a host when it has no filter (no hostname and no zone configured)
or when its filter matches the host. -/
def accepts (isIP : String → Bool) (hostnames zones : List String) (host : String) : Bool :=
  (hostnames.isEmpty && zones.isEmpty) || filterMatches isIP hostnames zones host

/-- Whether tier `k` (1, 2 or 3) takes the host. -/
def tierAccepts (isIP : String → Bool) (c : Config) (k : Nat) (host : String) : Bool :=
  match k with
  | 1 => accepts isIP c.filterHostnames1 c.filterZones1 host
  | 2 => accepts isIP c.filterHostnames2 c.filterZones2 host
  | 3 => accepts isIP c.filterHostnames3 c.filterZones3 host
  | _ => false

/-! ### The membership test of the specification -/

/-- Zone membership as the specification words it ("exact match OR suffix match on
a zone boundary"): the host is the zone, or ends with a dot followed by the zone. -/
def zoneContains (zone host : String) : Bool :=
  decide (host = zone) || HasSuffix host ("." ++ zone)

/-- A hostname or zone of a flag without its one trailing dot, if it has one. -/
def withoutTrailingDot (s : String) : String :=
  match s.data.reverse with
  | '.' :: r => String.mk r.reverse
  | _ => s

/-- A zone of a flag as a plain domain: its one trailing dot, if any, is cut, and
then its one leading dot, if any. -/
def plainZone (zone : String) : String :=
  match (withoutTrailingDot zone).data with
  | '.' :: r => String.mk r
  | _ => withoutTrailingDot zone

/-- The membership test of the specification on the entries of a filter: the host
equals one of the hostnames, each without its trailing dot, or lies in one of the
zones, each as a plain domain. -/
def inMatchSet (hostnames zones : List String) (host : String) : Bool :=
  hostnames.any (fun n => decide (host = withoutTrailingDot n)) ||
    zones.any (fun z => zoneContains (plainZone z) host)

/-- A filter matches a host that is not an IP literal and is in its match set; it
matches no IP literal. -/
def matchesFilter (isIP : String → Bool) (hostnames zones : List String)
    (host : String) : Bool :=
  !isIP host && inMatchSet hostnames zones host

/-- A tier takes a host when it has no hostname and no zone configured, or when its
filter matches the host. -/
def takes (isIP : String → Bool) (hostnames zones : List String) (host : String) : Bool :=
  (hostnames.isEmpty && zones.isEmpty) || matchesFilter isIP hostnames zones host

/-- Whether tier `k` (1, 2 or 3) takes the host, by the membership test of the
specification. -/
def tierTakes (isIP : String → Bool) (c : Config) (k : Nat) (host : String) : Bool :=
  match k with
  | 1 => takes isIP c.filterHostnames1 c.filterZones1 host
  | 2 => takes isIP c.filterHostnames2 c.filterZones2 host
  | 3 => takes isIP c.filterHostnames3 c.filterZones3 host
  | _ => false

/-- A tier takes an address `host:port` when it has no filter, or when the address
splits and its filter matches the host. -/
def takesAddr (isIP : String → Bool) (hostnames zones : List String) (addr : String) : Bool :=
  (hostnames.isEmpty && zones.isEmpty) ||
    match SplitHostPort addr with
    | .ok (host, _) => matchesFilter isIP hostnames zones host
    | .error _ => false

/-- The chain of tier `k`: the CONNECT hops in the order they are made. -/
def tierChain (c : Config) (k : Nat) : List Upstream :=
  match k with
  | 1 => [c.up3, c.up2, c.up1]
  | 2 => [c.up3, c.up2]
  | 3 => [c.up3]
  | _ => []

/-- A sample value for the parameter `isIP`, used where a statement is evaluated at
concrete hosts: it recognises the dotted-decimal IPv4 literals, four fields of one
to three digits and of value at most 255. -/
def ipv4Literal (host : String) : Bool :=
  match splitChars '.' host.data with
  | [a, b, c, d] =>
    [a, b, c, d].all (fun f =>
      !f.isEmpty && decide (f.length ≤ 3) && f.all Char.isDigit &&
        decide (f.foldl (fun n ch => 10 * n + (ch.toNat - 48)) 0 ≤ 255))
  | _ => false

/-- A configuration without any filter: three upstream proxies, every destination
goes through tier 1's chain. The examples below override single fields. -/
def plainConfig : Config where
  upstreamHost1 := "proxy1.example:8080"
  proxyUser1 := "user1"
  proxyPass1 := "pass1"
  upstreamHost2 := "proxy2.example:8080"
  proxyUser2 := "user2"
  proxyPass2 := "pass2"
  upstreamHost3 := "proxy3.example:8080"
  proxyUser3 := "user3"
  proxyPass3 := "pass3"
  proxyCountry := "US"
  filterHostnames1 := []
  filterZones1 := []
  filterHostnames2 := []
  filterZones2 := []
  filterHostnames3 := []
  filterZones3 := []
  excludeHostnames := []
  excludeZones := []

/-- The entry `l:t` of the flag `proxy.port-map`. -/
def portEntry (e : String × String) : String := e.1 ++ ":" ++ e.2

/-! ## The construction as the specification words it -/

/-- Tier 2's tunnel as the specification words it: "a chained tunnel dialer that
first tunnels through upstream-3's resolved dialer from step 1", the step 1 result
being `dialer3`. -/
def specDialerUpstream2 (c : Config) : Dialer := .httpConnect (dialer3 c) c.up2

/-- The tier-2 result as the specification words it: matched branch the chained
tunnel, "fallback is the tier-3 result". -/
def specDialer2 (c : Config) : Dialer :=
  if c.filterHostnames2.length > 0 ∨ c.filterZones2.length > 0 then
    (addRules (NewPerHost (dialer3 c) (specDialerUpstream2 c))
      c.filterHostnames2 c.filterZones2).toDialer
  else specDialerUpstream2 c

/-- Tier 1's tunnel as the specification words it: "matched branch chains upstream-1
atop the tier-2 result". -/
def specDialerUpstream1 (c : Config) : Dialer := .httpConnect (specDialer2 c) c.up1

/-- The tier-1 result as the specification words it: "fallback is the tier-2
result". -/
def specDialer1 (c : Config) : Dialer :=
  if c.filterHostnames1.length > 0 ∨ c.filterZones1.length > 0 then
    (addRules (NewPerHost (specDialer2 c) (specDialerUpstream1 c))
      c.filterHostnames1 c.filterZones1).toDialer
  else specDialerUpstream1 c

/-- Step 4 of the specification on top of `specDialer1`: the exclusions. -/
def specServerDialer (c : Config) : Dialer :=
  if c.excludeHostnames.length > 0 ∨ c.excludeZones.length > 0 then
    (addRules (NewPerHost (specDialer1 c) .direct)
      c.excludeHostnames c.excludeZones).toDialer
  else specDialer1 c

/-! ## Lemmas on the port map -/

theorem PortMap.get?_set (m : PortMap) (k v k' : String) :
    (m.set k v).get? k' = if k = k' then some v else m.get? k' := by
  induction m with
  | nil => simp [PortMap.set, PortMap.get?]
  | cons e t ih =>
    obtain ⟨a, b⟩ := e
    by_cases h : a = k
    · subst h
      by_cases h' : a = k' <;> simp [PortMap.set, PortMap.get?, h']
    · by_cases h' : a = k'
      · subst h'
        simp [PortMap.set, PortMap.get?, h, Ne.symm h]
      · simp [PortMap.set, PortMap.get?, h, h', ih]

theorem PortMap.mem_keys_set (m : PortMap) (k v k' : String) :
    k' ∈ (m.set k v).keys ↔ k' = k ∨ k' ∈ m.keys := by
  induction m with
  | nil => simp [PortMap.set, PortMap.keys]
  | cons e t ih =>
    obtain ⟨a, b⟩ := e
    by_cases h : a = k
    · subst h
      simp [PortMap.set, PortMap.keys]
    · have ih' : k' ∈ List.map Prod.fst (PortMap.set t k v) ↔
          k' = k ∨ k' ∈ List.map Prod.fst t := ih
      simp only [PortMap.set, PortMap.keys, if_neg h, List.map_cons, List.mem_cons, ih']
      tauto

theorem PortMap.nodup_keys_set (m : PortMap) (k v : String) (hm : m.keys.Nodup) :
    (m.set k v).keys.Nodup := by
  induction m with
  | nil => simp [PortMap.set, PortMap.keys]
  | cons e t ih =>
    obtain ⟨a, b⟩ := e
    have hm' : a ∉ PortMap.keys t ∧ (PortMap.keys t).Nodup := by
      simpa [PortMap.keys] using hm
    by_cases h : a = k
    · subst h
      simpa [PortMap.set, PortMap.keys] using hm
    · have hnot : a ∉ PortMap.keys (PortMap.set t k v) := by
        rw [PortMap.mem_keys_set]
        intro hc
        rcases hc with hc | hc
        · exact h hc
        · exact hm'.1 hc
      have hnd := ih hm'.2
      simp only [PortMap.set, if_neg h]
      simp only [PortMap.keys, List.map_cons, List.nodup_cons] at hnot hnd ⊢
      exact ⟨hnot, hnd⟩

theorem splitChars_of_not_mem (sep : Char) (s : List Char) (h : sep ∉ s) :
    splitChars sep s = [s] := by
  induction s with
  | nil => rfl
  | cons c cs ih =>
    have hc : c ≠ sep := fun e => h (by simp [e])
    have hcs : sep ∉ cs := fun e => h (by simp [e])
    simp [splitChars, hc, ih hcs]

theorem splitChars_pair (sep : Char) (l t : List Char) (hl : sep ∉ l) (ht : sep ∉ t) :
    splitChars sep (l ++ sep :: t) = [l, t] := by
  induction l with
  | nil => simp [splitChars, splitChars_of_not_mem sep t ht]
  | cons c cs ih =>
    have hc : c ≠ sep := fun e => hl (by simp [e])
    have hcs : sep ∉ cs := fun e => hl (by simp [e])
    simp [splitChars, hc, ih hcs]

theorem length_splitChars (sep : Char) (s : List Char) :
    (splitChars sep s).length = s.count sep + 1 := by
  induction s with
  | nil => rfl
  | cons c cs ih =>
    by_cases hc : c = sep
    · subst hc
      simp [splitChars, ih]
    · have hne : (c == sep) = false := by simpa using hc
      cases hsp : splitChars sep cs with
      | nil => simp [hsp] at ih
      | cons x xs =>
        rw [hsp] at ih
        simp only [splitChars, if_neg hc, hsp, List.length_cons] at ih ⊢
        rw [List.count_cons, hne]
        simpa using ih

theorem Split_portEntry (e : String × String)
    (h : ':' ∉ e.1.data ∧ ':' ∉ e.2.data) : Split (portEntry e) = [e.1, e.2] := by
  have hd : (portEntry e).data = e.1.data ++ ':' :: e.2.data := by
    simp [portEntry, String.data_append]
  simp [Split, hd, splitChars_pair ':' _ _ h.1 h.2]

/-- Every string with exactly one colon is an entry `l:t` with colon-free parts. -/
theorem exists_portEntry_of_one_colon (p : String) (h : p.data.count ':' = 1) :
    ∃ e : String × String, (':' ∉ e.1.data ∧ ':' ∉ e.2.data) ∧ portEntry e = p := by
  have hmem : ':' ∈ p.data := by
    apply List.count_pos_iff.1
    omega
  obtain ⟨s, t, hst⟩ := List.append_of_mem hmem
  have hc : s.count ':' + (t.count ':' + 1) = 1 := by
    have := h
    rw [hst, List.count_append, List.count_cons_self] at this
    exact this
  have hs : ':' ∉ s := List.count_eq_zero.1 (by omega)
  have ht : ':' ∉ t := List.count_eq_zero.1 (by omega)
  refine ⟨(String.mk s, String.mk t), ⟨hs, ht⟩, ?_⟩
  have hd : (portEntry (String.mk s, String.mk t)).data = p.data := by
    simp [portEntry, String.data_append, hst]
  exact String.ext hd

theorem length_Split (p : String) : (Split p).length = p.data.count ':' + 1 := by
  simp [Split, length_splitChars]

/-- The map after the loop of `parsePortMap` over well-formed entries. -/
theorem parsePortMapLoop_entries (es : List (String × String)) (m : PortMap)
    (h : ∀ e ∈ es, ':' ∉ e.1.data ∧ ':' ∉ e.2.data) :
    parsePortMapLoop (es.map portEntry) m
      = .ok (es.foldl (fun acc e => acc.set e.1 e.2) m) := by
  induction es generalizing m with
  | nil => rfl
  | cons e es ih =>
    have he := h e (by simp)
    have hes : ∀ e' ∈ es, ':' ∉ e'.1.data ∧ ':' ∉ e'.2.data :=
      fun e' he' => h e' (by simp [he'])
    simp only [List.map_cons, parsePortMapLoop, Split_portEntry e he, List.foldl_cons]
    exact ih _ hes

theorem get?_foldl_set (es : List (String × String)) (m : PortMap) (k : String) :
    (es.foldl (fun acc e => acc.set e.1 e.2) m).get? k
      = match es.reverse.lookup k with
        | some t => some t
        | none => m.get? k := by
  induction es using List.reverseRecOn with
  | nil => simp [List.lookup]
  | append_singleton es e ih =>
    simp only [List.foldl_append, List.foldl_cons, List.foldl_nil, List.reverse_append,
      List.reverse_cons, List.reverse_nil, List.nil_append, List.singleton_append,
      PortMap.get?_set]
    by_cases hk : e.1 = k
    · subst hk
      simp [List.lookup]
    · have hb : (k == e.1) = false := by
        simpa using (fun h' : k = e.1 => hk h'.symm)
      rw [if_neg hk, ih]
      simp [List.lookup, hb]

theorem mem_keys_foldl_set (es : List (String × String)) (m : PortMap) (k : String) :
    k ∈ (es.foldl (fun acc e => acc.set e.1 e.2) m).keys
      ↔ k ∈ m.keys ∨ ∃ e ∈ es, e.1 = k := by
  induction es generalizing m with
  | nil => simp
  | cons e es ih =>
    simp only [List.foldl_cons, ih, PortMap.mem_keys_set, List.mem_cons, exists_eq_or_imp]
    constructor
    · rintro ((h | h) | h)
      · exact Or.inr (Or.inl h.symm)
      · exact Or.inl h
      · exact Or.inr (Or.inr h)
    · rintro (h | h | h)
      · exact Or.inl (Or.inr h)
      · exact Or.inl (Or.inl h.symm)
      · exact Or.inr h

theorem nodup_keys_foldl_set (es : List (String × String)) (m : PortMap)
    (hm : m.keys.Nodup) : (es.foldl (fun acc e => acc.set e.1 e.2) m).keys.Nodup := by
  induction es generalizing m with
  | nil => simpa using hm
  | cons e es ih => exact ih _ (PortMap.nodup_keys_set m e.1 e.2 hm)

/-- The loop fails exactly when some entry has not exactly one colon. -/
theorem parsePortMapLoop_error_iff (ports : List String) (m : PortMap) :
    (∃ err, parsePortMapLoop ports m = .error err)
      ↔ ∃ p ∈ ports, p.data.count ':' ≠ 1 := by
  induction ports generalizing m with
  | nil => simp [parsePortMapLoop]
  | cons p ps ih =>
    have hlen := length_Split p
    by_cases hp : p.data.count ':' = 1
    · rw [hp] at hlen
      obtain ⟨l, t, hlt⟩ : ∃ l t, Split p = [l, t] := by
        match hs : Split p, hlen with
        | [l, t], _ => exact ⟨l, t, rfl⟩
      simp only [parsePortMapLoop, hlt, ih, List.mem_cons, exists_eq_or_imp]
      simp [hp]
    · have hne : (Split p).length ≠ 2 := by omega
      have herr : parsePortMapLoop (p :: ps) m = .error (.failedToParsePortMapping p) := by
        match hs : Split p, hne with
        | [], _ => simp [parsePortMapLoop, hs]
        | [_], _ => simp [parsePortMapLoop, hs]
        | [_, _], h2 => exact absurd rfl h2
        | _ :: _ :: _ :: _, _ => simp [parsePortMapLoop, hs]
      constructor
      · intro _
        exact ⟨p, by simp, hp⟩
      · intro _
        exact ⟨_, herr⟩

/-! ## The port map: what `parsePortMap` returns -/

/-- C7: for a bind address whose port `b` parses and entries `l:t` with exactly one
colon each, `parsePortMap` succeeds; the keys of the map are `b` and the listen
ports, each once, so the map is not empty; a key maps to the target of the last
entry naming it, and `b` maps to `"443"` when no entry names it. The flag value
`"8443:443,18443:8443"` with bind address `":9999"` gives
`{"9999":"443", "8443":"443", "18443":"8443"}`. -/
theorem C7_parsePortMap_entries :
    (∀ (proxyAddr host b : String) (es : List (String × String)),
      SplitHostPort proxyAddr = .ok (host, b) →
      (∀ e ∈ es, ':' ∉ e.1.data ∧ ':' ∉ e.2.data) →
      ∃ m, parsePortMap (es.map portEntry) proxyAddr = .ok m ∧ m ≠ [] ∧ m.keys.Nodup ∧
        (∀ k, k ∈ m.keys ↔ k = b ∨ ∃ e ∈ es, e.1 = k) ∧
        (∀ k, m.get? k =
          match es.reverse.lookup k with
          | some t => some t
          | none => if k = b then some "443" else none)) ∧
    flagArraySet "8443:443,18443:8443" = ["8443:443", "18443:8443"] ∧
    parsePortMap ["8443:443", "18443:8443"] ":9999"
      = .ok [("9999", "443"), ("8443", "443"), ("18443", "8443")] := by
  refine ⟨?_, rfl, rfl⟩
  intro proxyAddr host b es hb hes
  refine ⟨es.foldl (fun acc e => acc.set e.1 e.2) [(b, "443")], ?_, ?_, ?_, ?_, ?_⟩
  · simp only [parsePortMap, hb]
    exact parsePortMapLoop_entries es _ hes
  · intro hnil
    have hmem := (mem_keys_foldl_set es [(b, "443")] b).2 (Or.inl (by simp [PortMap.keys]))
    rw [hnil] at hmem
    simp [PortMap.keys] at hmem
  · exact nodup_keys_foldl_set es _ (by simp [PortMap.keys])
  · intro k
    rw [mem_keys_foldl_set]
    simp [PortMap.keys]
  · intro k
    rw [get?_foldl_set]
    cases es.reverse.lookup k with
    | some t => rfl
    | none =>
      by_cases hk : k = b
      · subst hk
        simp [PortMap.get?]
      · have hk' : ¬ b = k := fun h => hk h.symm
        simp [PortMap.get?, hk, hk']

theorem C7_parsePortMap_entries_witness :
    SplitHostPort "0.0.0.0:9999" = .ok ("0.0.0.0", "9999") ∧
    ∃ m, parsePortMap ([("8443", "443"), ("9999", "80"), ("8443", "22")].map portEntry)
        "0.0.0.0:9999" = .ok m ∧ m ≠ [] ∧ m.keys.Nodup ∧
      (∀ k, k ∈ m.keys ↔ k = "9999" ∨
        ∃ e ∈ [("8443", "443"), ("9999", "80"), ("8443", "22")], e.1 = k) ∧
      (∀ k, m.get? k =
        match [("8443", "443"), ("9999", "80"), ("8443", "22")].reverse.lookup k with
        | some t => some t
        | none => if k = "9999" then some "443" else none) :=
  ⟨rfl, C7_parsePortMap_entries.1 "0.0.0.0:9999" "0.0.0.0" "9999"
    [("8443", "443"), ("9999", "80"), ("8443", "22")] rfl (by decide)⟩

/-- C8: `parsePortMap` returns an error exactly when `net.SplitHostPort` rejects the
bind address or some entry does not split on `":"` into exactly two parts, which
is when it has no colon or at least two; in every other case it returns a map. -/
theorem C8_parsePortMap_error_iff (ports : List String) (proxyAddr : String) :
    ((∃ err, parsePortMap ports proxyAddr = .error err) ↔
      ((∃ e, SplitHostPort proxyAddr = .error e) ∨ ∃ p ∈ ports, (Split p).length ≠ 2)) ∧
    ((∃ m, parsePortMap ports proxyAddr = .ok m) ↔
      ¬ ((∃ e, SplitHostPort proxyAddr = .error e) ∨ ∃ p ∈ ports, (Split p).length ≠ 2)) ∧
    (∀ p : String, (Split p).length ≠ 2 ↔
      (p.data.count ':' = 0 ∨ 2 ≤ p.data.count ':')) := by
  have hlen : ∀ p : String, (Split p).length ≠ 2 ↔ p.data.count ':' ≠ 1 := by
    intro p
    rw [length_Split]
    omega
  have hcond : (∃ p ∈ ports, (Split p).length ≠ 2) ↔ ∃ p ∈ ports, p.data.count ':' ≠ 1 := by
    constructor
    · rintro ⟨p, hp, h⟩
      exact ⟨p, hp, (hlen p).1 h⟩
    · rintro ⟨p, hp, h⟩
      exact ⟨p, hp, (hlen p).2 h⟩
  have herr : (∃ err, parsePortMap ports proxyAddr = .error err) ↔
      ((∃ e, SplitHostPort proxyAddr = .error e) ∨ ∃ p ∈ ports, (Split p).length ≠ 2) := by
    rw [hcond]
    cases hs : SplitHostPort proxyAddr with
    | error e => simp [parsePortMap, hs]
    | ok hp =>
      obtain ⟨host, port⟩ := hp
      simp only [parsePortMap, hs, parsePortMapLoop_error_iff]
      simp
  refine ⟨herr, ?_, ?_⟩
  · rw [← herr]
    cases parsePortMap ports proxyAddr with
    | error e => simp
    | ok m => simp
  · intro p
    rw [length_Split]
    omega

/-- C10: the host part of the bind address does not reach the port map: two bind
addresses that split to the same port give the same result of `parsePortMap` and
the same listen addresses; the addresses `main` listens on are `":" + k` for the
keys `k` of the port map, so `"127.0.0.1:8443"` is served on `":8443"`. -/
theorem C10_bind_host_ignored :
    (∀ (ports : List String) (addr1 addr2 host1 host2 port : String),
      SplitHostPort addr1 = .ok (host1, port) →
      SplitHostPort addr2 = .ok (host2, port) →
      parsePortMap ports addr1 = parsePortMap ports addr2 ∧
      mainListenAddrs ports addr1 = mainListenAddrs ports addr2) ∧
    (∀ (ports : List String) (addr : String) (m : PortMap),
      parsePortMap ports addr = .ok m →
      ∃ served, mainListenAddrs ports addr = .ok served ∧
        ∀ a, a ∈ served ↔ ∃ k ∈ m.keys, a = ":" ++ k) ∧
    mainListenAddrs [] "127.0.0.1:8443" = .ok [":8443"] := by
  refine ⟨?_, ?_, rfl⟩
  · intro ports addr1 addr2 host1 host2 port h1 h2
    have hpm : parsePortMap ports addr1 = parsePortMap ports addr2 := by
      simp [parsePortMap, h1, h2]
    exact ⟨hpm, by simp [mainListenAddrs, hpm]⟩
  · intro ports addr m hm
    refine ⟨listenAddrs m, by simp [mainListenAddrs, hm], ?_⟩
    intro a
    simp only [listenAddrs, List.mem_map]
    constructor
    · rintro ⟨k, hk, rfl⟩
      exact ⟨k, hk, rfl⟩
    · rintro ⟨k, hk, rfl⟩
      exact ⟨k, hk, rfl⟩

theorem C10_bind_host_ignored_witness :
    SplitHostPort "127.0.0.1:8443" = .ok ("127.0.0.1", "8443") ∧
    SplitHostPort "[::1]:8443" = .ok ("::1", "8443") ∧
    parsePortMap ["18443:8443"] "127.0.0.1:8443" = parsePortMap ["18443:8443"] "[::1]:8443" ∧
    mainListenAddrs ["18443:8443"] "127.0.0.1:8443"
      = mainListenAddrs ["18443:8443"] "[::1]:8443" :=
  ⟨rfl, rfl, C10_bind_host_ignored.1 ["18443:8443"] "127.0.0.1:8443" "[::1]:8443"
    "127.0.0.1" "::1" "8443" rfl rfl⟩

/-! ## Lemmas on the route chain -/

theorem foldl_AddHost (hostnames : List String) (p : PerHost) :
    hostnames.foldl PerHost.AddHost p
      = { p with bypassHosts := p.bypassHosts ++ hostnames.map trimDot } := by
  induction hostnames generalizing p with
  | nil => simp
  | cons x xs ih => simp [List.foldl_cons, ih, PerHost.AddHost]

theorem foldl_AddZone (zones : List String) (p : PerHost) :
    zones.foldl PerHost.AddZone p
      = { p with bypassZones := p.bypassZones ++ zones.map storedZone } := by
  induction zones generalizing p with
  | nil => simp
  | cons x xs ih => simp [List.foldl_cons, ih, PerHost.AddZone]

theorem toDialer_addRules (d b : Dialer) (hostnames zones : List String) :
    (addRules (NewPerHost d b) hostnames zones).toDialer
      = .perHost d b (zones.map storedZone) (hostnames.map trimDot) := by
  simp [addRules, foldl_AddHost, foldl_AddZone, NewPerHost, PerHost.toDialer]

theorem filterMatches_nil (isIP : String → Bool) (host : String) :
    filterMatches isIP [] [] host = false := by
  simp [filterMatches, usesBypass]

/-- One tier of `main`: with a filter the dial goes to `bypass` for a matched host
and to the default otherwise; without a filter it always goes to `bypass`. -/
theorem Dial_tier (isIP : String → Bool) (d b : Dialer) (hostnames zones : List String)
    (addr host port : String) (hsp : SplitHostPort addr = .ok (host, port)) :
    Dial isIP (if hostnames.length > 0 ∨ zones.length > 0 then
        (addRules (NewPerHost d b) hostnames zones).toDialer else b) addr
      = if accepts isIP hostnames zones host then Dial isIP b addr else Dial isIP d addr := by
  by_cases hf : hostnames.length > 0 ∨ zones.length > 0
  · have hne : (hostnames.isEmpty && zones.isEmpty) = false := by
      rcases hf with h | h
      · cases hostnames with
        | nil => simp at h
        | cons x xs => simp
      · cases zones with
        | nil => simp at h
        | cons x xs => simp
    rw [if_pos hf, toDialer_addRules]
    simp only [Dial, hsp, accepts, hne, Bool.false_or, filterMatches]
  · have he : hostnames = [] ∧ zones = [] := by
      constructor
      · cases hostnames with
        | nil => rfl
        | cons x xs => exact absurd (Or.inl (by simp)) hf
      · cases zones with
        | nil => rfl
        | cons x xs => exact absurd (Or.inr (by simp)) hf
    rw [if_neg hf]
    simp [accepts, he.1, he.2]

theorem Dial_dialerUpstream3 (isIP : String → Bool) (c : Config) (addr : String) :
    Dial isIP (dialerUpstream3 c) addr = .ok [c.up3] := by
  simp [dialerUpstream3, Dial]

theorem Dial_dialerUpstream2 (isIP : String → Bool) (c : Config) (addr : String) :
    Dial isIP (dialerUpstream2 c) addr = .ok [c.up3, c.up2] := by
  simp [dialerUpstream2, Dial, Dial_dialerUpstream3]

theorem Dial_dialerUpstream1 (isIP : String → Bool) (c : Config) (addr : String) :
    Dial isIP (dialerUpstream1 c) addr = .ok [c.up3, c.up2, c.up1] := by
  simp [dialerUpstream1, Dial, Dial_dialerUpstream2]

/-- The route `main` selects for a host: nothing for an excluded host, else the
chain of the first tier, in the order 1, 2, 3, that takes the host, else nothing. -/
theorem Dial_serverDialer (isIP : String → Bool) (c : Config) (addr host port : String)
    (hsp : SplitHostPort addr = .ok (host, port)) :
    Dial isIP (serverDialer c) addr
      = .ok (if filterMatches isIP c.excludeHostnames c.excludeZones host then []
          else if tierAccepts isIP c 1 host then tierChain c 1
          else if tierAccepts isIP c 2 host then tierChain c 2
          else if tierAccepts isIP c 3 host then tierChain c 3
          else []) := by
  have h3 : Dial isIP (dialer3 c) addr
      = .ok (if tierAccepts isIP c 3 host then tierChain c 3 else []) := by
    unfold dialer3
    rw [Dial_tier isIP _ _ _ _ addr host port hsp, Dial_dialerUpstream3]
    simp only [tierAccepts, tierChain, Dial]
    split <;> rfl
  have h2 : Dial isIP (dialer2 c) addr
      = .ok (if tierAccepts isIP c 2 host then tierChain c 2
          else if tierAccepts isIP c 3 host then tierChain c 3 else []) := by
    unfold dialer2
    rw [Dial_tier isIP _ _ _ _ addr host port hsp, Dial_dialerUpstream2, h3]
    simp only [tierAccepts, tierChain]
    split <;> rfl
  have h1 : Dial isIP (dialer1 c) addr
      = .ok (if tierAccepts isIP c 1 host then tierChain c 1
          else if tierAccepts isIP c 2 host then tierChain c 2
          else if tierAccepts isIP c 3 host then tierChain c 3 else []) := by
    unfold dialer1
    rw [Dial_tier isIP _ _ _ _ addr host port hsp, Dial_dialerUpstream1, h2]
    simp only [tierAccepts, tierChain]
    split <;> rfl
  unfold serverDialer
  by_cases hx : c.excludeHostnames.length > 0 ∨ c.excludeZones.length > 0
  · rw [if_pos hx, toDialer_addRules]
    simp only [Dial, hsp, h1, filterMatches]
    split <;> rfl
  · have he : c.excludeHostnames = [] ∧ c.excludeZones = [] := by
      constructor
      · cases hh : c.excludeHostnames with
        | nil => rfl
        | cons x xs => exact absurd (Or.inl (by simp [hh])) hx
      · cases hh : c.excludeZones with
        | nil => rfl
        | cons x xs => exact absurd (Or.inr (by simp [hh])) hx
    rw [if_neg hx, h1, he.1, he.2, filterMatches_nil]
    simp

theorem filterMatches_iff (isIP : String → Bool) (hostnames zones : List String)
    (host : String) (hip : isIP host = false) :
    filterMatches isIP hostnames zones host = true
      ↔ (host ∈ hostnames.map trimDot ∨ ∃ z ∈ zones, inZone z host = true) := by
  simp only [filterMatches, usesBypass, hip, inZone]
  by_cases hz : ((zones.map storedZone).any (zoneRule host)) = true
  · simp only [hz, if_true]
    simp only [List.any_eq_true, List.mem_map] at hz
    obtain ⟨z', ⟨z, hzm, rfl⟩, hr⟩ := hz
    simp only [Bool.false_eq_true, if_false, true_iff]
    exact Or.inr ⟨z, hzm, hr⟩
  · simp only [Bool.false_eq_true, if_false, hz]
    constructor
    · intro h
      simp only [List.any_eq_true, decide_eq_true_eq] at h
      obtain ⟨b, hb, rfl⟩ := h
      exact Or.inl hb
    · rintro (h | ⟨z, hzm, hr⟩)
      · simp only [List.any_eq_true, decide_eq_true_eq]
        exact ⟨host, h, rfl⟩
      · exact absurd (by
          simp only [List.any_eq_true, List.mem_map]
          exact ⟨storedZone z, ⟨z, hzm, rfl⟩, hr⟩) hz

theorem usesBypass_false_of_nomatch (isIP : String → Bool) (zs hs : List String)
    (host : String) (h : usesBypass (fun _ => false) zs hs host = false) :
    usesBypass isIP zs hs host = false := by
  unfold usesBypass at h ⊢
  cases isIP host <;> simp_all

theorem Dial_perHost_default (isIP : String → Bool) (d b : Dialer) (zs hs : List String)
    (addr host port : String) (hsp : SplitHostPort addr = .ok (host, port))
    (hm : usesBypass isIP zs hs host = false) :
    Dial isIP (.perHost d b zs hs) addr = Dial isIP d addr := by
  simp [Dial, hsp, hm]

theorem Dial_httpConnect (isIP : String → Bool) (f : Dialer) (up : Upstream) (addr : String) :
    Dial isIP (.httpConnect f up) addr
      = match Dial isIP f up.forwardAddress with
        | .error err => .error err
        | .ok hops => .ok (hops ++ [up]) := by
  simp [Dial]

/-! ## Zones and hops -/

theorem storedZone_plain (z : String) (hlead : HasPrefix z "." = false)
    (htrail : HasSuffix z "." = false) : storedZone z = "." ++ z := by
  simp [storedZone, trimDot, hlead, htrail]

/-- C5 (as amended): for a zone written without a leading dot and without a trailing
dot, and a host that is not an IP literal, the filter built with `AddZone` matches the
host exactly when the host is the zone or ends with a dot followed by the zone; zone
`example.com` matches `example.com` and `a.example.com`, not `notexample.com`. -/
theorem C5_zone_boundary :
    (∀ (isIP : String → Bool) (z h : String),
      HasPrefix z "." = false → HasSuffix z "." = false → isIP h = false →
      (filterMatches isIP [] [z] h = true ↔ (h = z ∨ HasSuffix h ("." ++ z) = true))) ∧
    filterMatches ipv4Literal [] ["example.com"] "example.com" = true ∧
    filterMatches ipv4Literal [] ["example.com"] "a.example.com" = true ∧
    filterMatches ipv4Literal [] ["example.com"] "notexample.com" = false := by
  refine ⟨?_, by decide, by decide, by decide⟩
  intro isIP z h hlead htrail hip
  rw [filterMatches_iff isIP [] [z] h hip]
  have hdrop : String.mk (("." ++ z).data.drop 1) = z := by
    have : ("." ++ z).data = '.' :: z.data := by simp [String.data_append]
    rw [this]
    rfl
  simp only [List.map_nil, List.not_mem_nil, false_or, List.mem_singleton, exists_eq_left,
    inZone, storedZone_plain z hlead htrail, zoneRule, hdrop, Bool.or_eq_true,
    decide_eq_true_eq]
  exact Or.comm

theorem C5_zone_boundary_witness :
    filterMatches ipv4Literal [] ["example.com"] "www.a.example.com" = true
      ↔ ("www.a.example.com" = "example.com" ∨
          HasSuffix "www.a.example.com" ("." ++ "example.com") = true) :=
  C5_zone_boundary.1 ipv4Literal "example.com" "www.a.example.com"
    (by decide) (by decide) (by decide)

/-- C5 as stated fails for a zone written with a trailing dot, which `AddZone` cuts:
zone `example.com.` has no leading dot and matches the host `example.com`, which is
neither the zone nor ends with `.example.com.`; and the host `example.com.`, which is
the zone as written, is not matched. -/
theorem C5_counterexample :
    HasPrefix "example.com." "." = false ∧
    (ipv4Literal "example.com" = false ∧
      (∀ isIP : String → Bool, isIP "example.com" = false →
        filterMatches isIP [] ["example.com."] "example.com" = true) ∧
      "example.com" ≠ "example.com." ∧
      HasSuffix "example.com" ("." ++ "example.com.") = false) ∧
    (ipv4Literal "example.com." = false ∧
      (∀ isIP : String → Bool,
        filterMatches isIP [] ["example.com."] "example.com." = false)) := by
  refine ⟨by decide, ⟨by decide, ?_, by decide, by decide⟩, ⟨by decide, ?_⟩⟩
  · intro isIP hip
    simp only [filterMatches, usesBypass, hip]
    rfl
  · intro isIP
    exact usesBypass_false_of_nomatch isIP _ _ _ (by decide)

/-- A dial through the dialer handed to the server fails on an address that does not
split, or makes the hops of no tier or of one tier. -/
theorem Dial_serverDialer_cases (isIP : String → Bool) (c : Config) (addr : String) :
    (∃ err, Dial isIP (serverDialer c) addr = .error err) ∨
    Dial isIP (serverDialer c) addr = .ok [] ∨
    Dial isIP (serverDialer c) addr = .ok [c.up3] ∨
    Dial isIP (serverDialer c) addr = .ok [c.up3, c.up2] ∨
    Dial isIP (serverDialer c) addr = .ok [c.up3, c.up2, c.up1] := by
  cases hs : SplitHostPort addr with
  | ok hp =>
    obtain ⟨host, port⟩ := hp
    rw [Dial_serverDialer isIP c addr host port hs]
    simp only [tierChain]
    split
    · exact Or.inr (Or.inl rfl)
    · split
      · exact Or.inr (Or.inr (Or.inr (Or.inr rfl)))
      · split
        · exact Or.inr (Or.inr (Or.inr (Or.inl rfl)))
        · split
          · exact Or.inr (Or.inr (Or.inl rfl))
          · exact Or.inr (Or.inl rfl)
  | error e =>
    unfold serverDialer
    by_cases hx : c.excludeHostnames.length > 0 ∨ c.excludeZones.length > 0
    · rw [if_pos hx, toDialer_addRules]
      exact Or.inl ⟨e, by simp [Dial, hs]⟩
    · rw [if_neg hx]
      unfold dialer1
      by_cases h1 : c.filterHostnames1.length > 0 ∨ c.filterZones1.length > 0
      · rw [if_pos h1, toDialer_addRules]
        exact Or.inl ⟨e, by simp [Dial, hs]⟩
      · rw [if_neg h1, Dial_dialerUpstream1]
        exact Or.inr (Or.inr (Or.inr (Or.inr rfl)))

/-- C6: the matched (or only) branch of tier 3 makes exactly the hop upstream-3, that
of tier 2 the hops upstream-3, upstream-2 in this order, that of tier 1 the hops
upstream-3, upstream-2, upstream-1 in this order, for every destination; and every
route the server's dialer selects is one of these chains, of 1 to 3 hops, or has no
hop (Direct). -/
theorem C6_chain_order (isIP : String → Bool) (c : Config) (addr : String) :
    (Dial isIP (dialerUpstream3 c) addr = .ok [c.up3] ∧
      Dial isIP (dialerUpstream2 c) addr = .ok [c.up3, c.up2] ∧
      Dial isIP (dialerUpstream1 c) addr = .ok [c.up3, c.up2, c.up1]) ∧
    ((dialer3 c = dialerUpstream3 c ∨
        ∃ zs hs, dialer3 c = .perHost .direct (dialerUpstream3 c) zs hs) ∧
      (dialer2 c = dialerUpstream2 c ∨
        ∃ zs hs, dialer2 c = .perHost (dialer3 c) (dialerUpstream2 c) zs hs) ∧
      (dialer1 c = dialerUpstream1 c ∨
        ∃ zs hs, dialer1 c = .perHost (dialer2 c) (dialerUpstream1 c) zs hs)) ∧
    ((∃ err, Dial isIP (serverDialer c) addr = .error err) ∨
      ∃ hops, Dial isIP (serverDialer c) addr = .ok hops ∧
        (hops = [] ∨ hops = [c.up3] ∨ hops = [c.up3, c.up2] ∨
          hops = [c.up3, c.up2, c.up1]) ∧
        hops.length ≤ 3) := by
  refine ⟨⟨Dial_dialerUpstream3 isIP c addr, Dial_dialerUpstream2 isIP c addr,
    Dial_dialerUpstream1 isIP c addr⟩, ⟨?_, ?_, ?_⟩, ?_⟩
  · unfold dialer3
    split
    · exact Or.inr ⟨_, _, toDialer_addRules _ _ _ _⟩
    · exact Or.inl rfl
  · unfold dialer2
    split
    · exact Or.inr ⟨_, _, toDialer_addRules _ _ _ _⟩
    · exact Or.inl rfl
  · unfold dialer1
    split
    · exact Or.inr ⟨_, _, toDialer_addRules _ _ _ _⟩
    · exact Or.inl rfl
  · rcases Dial_serverDialer_cases isIP c addr with h | h | h | h | h
    · exact Or.inl h
    · exact Or.inr ⟨_, h, Or.inl rfl, by simp⟩
    · exact Or.inr ⟨_, h, Or.inr (Or.inl rfl), by simp⟩
    · exact Or.inr ⟨_, h, Or.inr (Or.inr (Or.inl rfl)), by simp⟩
    · exact Or.inr ⟨_, h, Or.inr (Or.inr (Or.inr rfl)), by simp⟩

/-! ## The filters of the code decide the membership test of the specification -/

theorem withoutTrailingDot_eq_trimDot (s : String) : withoutTrailingDot s = trimDot s := by
  unfold withoutTrailingDot trimDot HasSuffix
  have hsuf : (".".data.isSuffixOf s.data) = true ↔ ['.'] <+: s.data.reverse := by
    rw [List.isSuffixOf_iff_suffix, ← List.reverse_prefix]
    rfl
  cases hr : s.data.reverse with
  | nil =>
    have hf : ¬ ['.'] <+: ([] : List Char) := by simp
    rw [hr] at hsuf
    have hb : (".".data.isSuffixOf s.data) = false := by
      cases hv : (".".data.isSuffixOf s.data) with
      | false => rfl
      | true => exact absurd (hsuf.1 hv) hf
    simp [hb]
  | cons x r =>
    rw [hr] at hsuf
    have hdata : s.data = r.reverse ++ [x] := by
      have := congrArg List.reverse hr
      simpa using this
    by_cases hx : x = '.'
    · subst hx
      have hb : (".".data.isSuffixOf s.data) = true := hsuf.2 (by simp)
      simp [hb, hdata]
    · have hb : (".".data.isSuffixOf s.data) = false := by
        cases hv : (".".data.isSuffixOf s.data) with
        | false => rfl
        | true =>
          have := hsuf.1 hv
          simp at this
          exact absurd this.symm hx
      simp [hb]
      split
      · next r' heq =>
        have hxe : x = '.' := (List.cons.inj heq).1
        exact absurd hxe hx
      · rfl

theorem mk_drop_dot_append (t : String) : String.mk (("." ++ t).data.drop 1) = t := by
  have : ("." ++ t).data = '.' :: t.data := by simp [String.data_append]
  rw [this]
  rfl

/-- The zone rule of `dialerForRequest` on a zone as `AddZone` stores it is the
membership test of the specification on the zone as a plain domain. -/
theorem zoneRule_storedZone (zone host : String) :
    zoneRule host (storedZone zone) = zoneContains (plainZone zone) host := by
  unfold storedZone plainZone
  rw [withoutTrailingDot_eq_trimDot]
  generalize trimDot zone = t
  have hplain : ∀ (hp : HasPrefix t "." = false),
      zoneRule host ("." ++ t) = zoneContains t host := by
    intro _
    simp only [zoneRule, zoneContains, mk_drop_dot_append]
    exact Bool.or_comm _ _
  cases ht : t.data with
  | nil =>
    have hp : HasPrefix t "." = false := by simp [HasPrefix, ht]
    simp only [hp, Bool.false_eq_true, if_false]
    exact hplain hp
  | cons x r =>
    by_cases hx : x = '.'
    · subst hx
      have hp : HasPrefix t "." = true := by simp [HasPrefix, ht]
      have ht' : "." ++ String.mk r = t := by
        apply String.ext
        simp [String.data_append, ht]
      simp only [hp, if_true, zoneRule, zoneContains, ht, List.drop_succ_cons, List.drop_zero,
        ht']
      exact Bool.or_comm _ _
    · have hp : HasPrefix t "." = false := by
        have hx' : ('.' == x) = false := by
          simpa using (fun e : '.' = x => hx e.symm)
        simp [HasPrefix, ht, List.isPrefixOf, hx']
      simp only [hp, Bool.false_eq_true, if_false]
      have hm : (match x :: r with
          | '.' :: r => String.mk r
          | _ => t) = t := by
        split
        · next r' heq => exact absurd (List.cons.inj heq).1 hx
        · rfl
      rw [hm]
      exact hplain hp

/-- The decision of the filter that `main` builds is the membership test of the
specification on the stored entries, no IP literal being matched. -/
theorem filterMatches_eq_matchesFilter (isIP : String → Bool) (hostnames zones : List String)
    (host : String) :
    filterMatches isIP hostnames zones host = matchesFilter isIP hostnames zones host := by
  have hz : (zones.map storedZone).any (zoneRule host)
      = zones.any (fun z => zoneContains (plainZone z) host) := by
    rw [List.any_map]
    congr 1
    funext z
    exact zoneRule_storedZone z host
  have hh : (hostnames.map trimDot).any (fun bypassHost => decide (bypassHost = host))
      = hostnames.any (fun n => decide (host = withoutTrailingDot n)) := by
    rw [List.any_map]
    congr 1
    funext n
    simp only [Function.comp, withoutTrailingDot_eq_trimDot]
    exact decide_eq_decide.2 eq_comm
  unfold filterMatches usesBypass matchesFilter inMatchSet
  rw [hz, hh]
  cases isIP host <;>
    cases zones.any (fun z => zoneContains (plainZone z) host) <;>
    cases hostnames.any (fun n => decide (host = withoutTrailingDot n)) <;> rfl

theorem accepts_eq_takes (isIP : String → Bool) (hostnames zones : List String)
    (host : String) : accepts isIP hostnames zones host = takes isIP hostnames zones host := by
  simp [accepts, takes, filterMatches_eq_matchesFilter]

theorem tierAccepts_eq_tierTakes (isIP : String → Bool) (c : Config) (k : Nat)
    (host : String) : tierAccepts isIP c k host = tierTakes isIP c k host := by
  unfold tierAccepts tierTakes
  split <;> simp [accepts_eq_takes]

/-- The route `main` selects, by the membership test of the specification. -/
theorem Dial_serverDialer_takes (isIP : String → Bool) (c : Config) (addr host port : String)
    (hsp : SplitHostPort addr = .ok (host, port)) :
    Dial isIP (serverDialer c) addr
      = .ok (if matchesFilter isIP c.excludeHostnames c.excludeZones host then []
          else if tierTakes isIP c 1 host then tierChain c 1
          else if tierTakes isIP c 2 host then tierChain c 2
          else if tierTakes isIP c 3 host then tierChain c 3
          else []) := by
  rw [Dial_serverDialer isIP c addr host port hsp, filterMatches_eq_matchesFilter,
    tierAccepts_eq_tierTakes, tierAccepts_eq_tierTakes, tierAccepts_eq_tierTakes]

theorem inMatchSet_iff (hostnames zones : List String) (host : String) :
    inMatchSet hostnames zones host = true
      ↔ ((∃ n ∈ hostnames, host = withoutTrailingDot n) ∨
          ∃ z ∈ zones, host = plainZone z ∨ HasSuffix host ("." ++ plainZone z) = true) := by
  simp [inMatchSet, zoneContains]

theorem zoneContains_suffix (zone host : String) (hz : zoneContains zone host = true) :
    zone.data <:+ host.data := by
  simp only [zoneContains, HasSuffix, Bool.or_eq_true, decide_eq_true_eq,
    List.isSuffixOf_iff_suffix] at hz
  rcases hz with hz | hz
  · rw [hz]
  · have hd : ("." ++ zone).data = '.' :: zone.data := by simp [String.data_append]
    rw [hd] at hz
    exact (List.suffix_cons _ _).trans hz

/-- Two domains none of which ends with the other have no host in common. -/
theorem zoneContains_disjoint (zoneA zoneB : String)
    (hab : ¬ zoneA.data <:+ zoneB.data) (hba : ¬ zoneB.data <:+ zoneA.data) :
    ∀ host, ¬ (zoneContains zoneA host = true ∧ zoneContains zoneB host = true) := by
  rintro host ⟨ha, hb⟩
  rcases List.suffix_or_suffix_of_suffix (zoneContains_suffix zoneA host ha)
    (zoneContains_suffix zoneB host hb) with h | h
  · exact hab h
  · exact hba h

/-! ## The route chain: exclusions and tier order -/

/-- C1 (as amended): with an exclusion filter, a host that is not an IP literal and
equals an exclusion hostname, taken without its trailing dot, or lies in an
exclusion zone, taken as a plain domain (trailing dot cut, then leading dot cut; the
host is the domain or ends with a dot followed by it), is dialled Direct by the dialer
handed to the server, with no hop, whatever the three tier filters hold. -/
theorem C1_exclusion_direct (isIP : String → Bool) (c : Config) (addr h port : String)
    (hsp : SplitHostPort addr = .ok (h, port)) (hip : isIP h = false)
    (hex : (∃ n ∈ c.excludeHostnames, h = withoutTrailingDot n) ∨
      ∃ z ∈ c.excludeZones, h = plainZone z ∨ HasSuffix h ("." ++ plainZone z) = true) :
    Dial isIP (serverDialer c) addr = .ok [] := by
  have hm : matchesFilter isIP c.excludeHostnames c.excludeZones h = true := by
    simp only [matchesFilter, hip, Bool.not_false, Bool.true_and]
    exact (inMatchSet_iff _ _ _).2 hex
  rw [Dial_serverDialer_takes isIP c addr h port hsp, hm]
  rfl

theorem C1_exclusion_direct_witness :
    Dial ipv4Literal
        (serverDialer { plainConfig with
          excludeHostnames := ["example.com."], filterZones2 := ["example.com"] })
        "example.com:443" = .ok [] ∧
    Dial ipv4Literal
        (serverDialer { plainConfig with excludeZones := [".example.org."] })
        "www.example.org:443" = .ok [] :=
  ⟨C1_exclusion_direct ipv4Literal
      { plainConfig with excludeHostnames := ["example.com."], filterZones2 := ["example.com"] }
      "example.com:443" "example.com" "443" rfl (by decide)
      (Or.inl ⟨"example.com.", by decide, by decide⟩),
    C1_exclusion_direct ipv4Literal
      { plainConfig with excludeZones := [".example.org."] }
      "www.example.org:443" "www.example.org" "443" rfl (by decide)
      (Or.inr ⟨".example.org.", by decide, Or.inr (by decide)⟩)⟩

/-- C1 as stated fails for entries written with a trailing dot. The exclusion
hostname `example.com.` is stored as `example.com`, so the host `example.com.`, which
is an exclusion hostname and no IP literal, is not matched and goes through tier 1's
chain; and with the exclusion zone `example.com.` the same host, which is the zone as
written, goes through tier 1's chain as well. -/
theorem C1_counterexample :
    ("example.com." ∈
        ({ plainConfig with excludeHostnames := ["example.com."] } : Config).excludeHostnames ∧
      SplitHostPort "example.com.:443" = .ok ("example.com.", "443") ∧
      ipv4Literal "example.com." = false ∧
      (∀ isIP : String → Bool, isIP "example.com." = false →
        Dial isIP (serverDialer { plainConfig with excludeHostnames := ["example.com."] })
          "example.com.:443" = .ok [plainConfig.up3, plainConfig.up2, plainConfig.up1])) ∧
    ("example.com." ∈
        ({ plainConfig with excludeZones := ["example.com."] } : Config).excludeZones ∧
      zoneContains "example.com." "example.com." = true ∧
      (∀ isIP : String → Bool, isIP "example.com." = false →
        Dial isIP (serverDialer { plainConfig with excludeZones := ["example.com."] })
          "example.com.:443" = .ok [plainConfig.up3, plainConfig.up2, plainConfig.up1])) := by
  refine ⟨⟨by decide, rfl, by decide, ?_⟩, ⟨by decide, by decide, ?_⟩⟩
  · intro isIP hip
    rw [Dial_serverDialer isIP _ "example.com.:443" "example.com." "443" rfl]
    simp only [filterMatches, usesBypass, hip, tierAccepts, accepts]
    rfl
  · intro isIP hip
    rw [Dial_serverDialer isIP _ "example.com.:443" "example.com." "443" rfl]
    simp only [filterMatches, usesBypass, hip, tierAccepts, accepts]
    rfl

/-- C2 (as amended): for a host that the exclusion filter does not match, if the host
is not an IP literal and equals one of tier 1's hostnames, taken without its trailing
dot, or lies in one of tier 1's zones, taken as a plain domain (trailing dot cut, then
leading dot cut), the route is tier 1's chain; and if tier 1 has no hostname and no
zone, the route of every such host is tier 1's chain, whatever the filters of tiers 2
and 3. The exclusion filter matches a host that is not an IP literal and is in its
match set, read the same way. -/
theorem C2_tier1_selected (isIP : String → Bool) (c : Config) (addr h port : String)
    (hsp : SplitHostPort addr = .ok (h, port))
    (hnex : matchesFilter isIP c.excludeHostnames c.excludeZones h = false) :
    (isIP h = false →
      ((∃ n ∈ c.filterHostnames1, h = withoutTrailingDot n) ∨
        ∃ z ∈ c.filterZones1, h = plainZone z ∨ HasSuffix h ("." ++ plainZone z) = true) →
      Dial isIP (serverDialer c) addr = .ok [c.up3, c.up2, c.up1]) ∧
    (c.filterHostnames1 = [] → c.filterZones1 = [] →
      Dial isIP (serverDialer c) addr = .ok [c.up3, c.up2, c.up1]) := by
  rw [Dial_serverDialer_takes isIP c addr h port hsp, hnex]
  constructor
  · intro hip hm
    have hacc : tierTakes isIP c 1 h = true := by
      simp [tierTakes, takes, matchesFilter, hip, (inMatchSet_iff _ _ _).2 hm]
    simp [hacc, tierChain]
  · intro h1 h2
    have hacc : tierTakes isIP c 1 h = true := by
      simp [tierTakes, takes, h1, h2]
    simp [hacc, tierChain]

theorem C2_tier1_selected_witness :
    Dial ipv4Literal
      (serverDialer { plainConfig with
        filterZones1 := ["example.com."], filterZones2 := ["example.com"],
        excludeHostnames := ["other.example"] })
      "a.example.com:443" = .ok [plainConfig.up3, plainConfig.up2, plainConfig.up1] :=
  (C2_tier1_selected ipv4Literal
    { plainConfig with
      filterZones1 := ["example.com."], filterZones2 := ["example.com"],
      excludeHostnames := ["other.example"] }
    "a.example.com:443" "a.example.com" "443" rfl (by decide)).1 (by decide)
    (Or.inr ⟨"example.com.", by decide, Or.inr (by decide)⟩)

/-- C2 as stated fails three times, with no exclusion filter: the IP literal
`10.0.0.1`, listed among tier 1's hostnames, is never compared with them and gets
tier 2's chain; the hostname `example.com.`, stored as `example.com`, does not match
the host `example.com.`, which gets tier 2's chain too; and with tier 1's zone
`example.com.` and tier 2's zone `other.example` the host `example.com.`, which is the
zone as written, gets tier 3's chain. -/
theorem C2_counterexample :
    ("10.0.0.1" ∈
        ({ plainConfig with filterHostnames1 := ["10.0.0.1"] } : Config).filterHostnames1 ∧
      SplitHostPort "10.0.0.1:443" = .ok ("10.0.0.1", "443") ∧
      ipv4Literal "10.0.0.1" = true ∧
      (∀ isIP : String → Bool, isIP "10.0.0.1" = true →
        Dial isIP (serverDialer { plainConfig with filterHostnames1 := ["10.0.0.1"] })
          "10.0.0.1:443" = .ok [plainConfig.up3, plainConfig.up2])) ∧
    ("example.com." ∈
        ({ plainConfig with filterHostnames1 := ["example.com."] } : Config).filterHostnames1 ∧
      SplitHostPort "example.com.:443" = .ok ("example.com.", "443") ∧
      ipv4Literal "example.com." = false ∧
      (∀ isIP : String → Bool, isIP "example.com." = false →
        Dial isIP (serverDialer { plainConfig with filterHostnames1 := ["example.com."] })
          "example.com.:443" = .ok [plainConfig.up3, plainConfig.up2])) ∧
    (zoneContains "example.com." "example.com." = true ∧
      (∀ isIP : String → Bool, isIP "example.com." = false →
        Dial isIP
          (serverDialer { plainConfig with
            filterZones1 := ["example.com."], filterZones2 := ["other.example"] })
          "example.com.:443" = .ok [plainConfig.up3])) ∧
    [plainConfig.up3, plainConfig.up2] ≠ [plainConfig.up3, plainConfig.up2, plainConfig.up1] ∧
    [plainConfig.up3] ≠ [plainConfig.up3, plainConfig.up2, plainConfig.up1] := by
  refine ⟨⟨by decide, rfl, by decide, ?_⟩, ⟨by decide, rfl, by decide, ?_⟩, ⟨by decide, ?_⟩,
    by decide, by decide⟩
  · intro isIP hip
    rw [Dial_serverDialer isIP _ "10.0.0.1:443" "10.0.0.1" "443" rfl]
    simp only [filterMatches, usesBypass, hip, tierAccepts, accepts]
    rfl
  · intro isIP hip
    rw [Dial_serverDialer isIP _ "example.com.:443" "example.com." "443" rfl]
    simp only [filterMatches, usesBypass, hip, tierAccepts, accepts]
    rfl
  · intro isIP hip
    rw [Dial_serverDialer isIP _ "example.com.:443" "example.com." "443" rfl]
    simp only [filterMatches, usesBypass, hip, tierAccepts, accepts]
    rfl

/-- C3 (as amended): for a host that the exclusion filter does not match, the route
is the chain of the smallest tier `k` of 1, 2, 3 whose filter is empty or matches the
host, so tier 1 wins over tier 2 over tier 3; and when every tier has a filter and
none matches the host, the host is dialled Direct. Here a filter matches a host that
is not an IP literal and equals one of its hostnames, taken without its trailing dot,
or lies in one of its zones, taken as a plain domain (trailing dot cut, then leading
dot cut); it matches no IP literal. -/
theorem C3_first_accepting_tier (isIP : String → Bool) (c : Config) (addr h port : String)
    (hsp : SplitHostPort addr = .ok (h, port))
    (hnex : matchesFilter isIP c.excludeHostnames c.excludeZones h = false) :
    (∀ k, 1 ≤ k → k ≤ 3 → tierTakes isIP c k h = true →
      (∀ j, 1 ≤ j → j < k → tierTakes isIP c j h = false) →
      Dial isIP (serverDialer c) addr = .ok (tierChain c k)) ∧
    ((c.filterHostnames1 ≠ [] ∨ c.filterZones1 ≠ []) →
      (c.filterHostnames2 ≠ [] ∨ c.filterZones2 ≠ []) →
      (c.filterHostnames3 ≠ [] ∨ c.filterZones3 ≠ []) →
      matchesFilter isIP c.filterHostnames1 c.filterZones1 h = false →
      matchesFilter isIP c.filterHostnames2 c.filterZones2 h = false →
      matchesFilter isIP c.filterHostnames3 c.filterZones3 h = false →
      Dial isIP (serverDialer c) addr = .ok []) := by
  rw [Dial_serverDialer_takes isIP c addr h port hsp, hnex]
  constructor
  · intro k hk1 hk3 hacc hmin
    interval_cases k
    · simp [hacc]
    · have h1 := hmin 1 (by omega) (by omega)
      simp [hacc, h1]
    · have h1 := hmin 1 (by omega) (by omega)
      have h2 := hmin 2 (by omega) (by omega)
      simp [hacc, h1, h2]
  · intro e1 e2 e3 m1 m2 m3
    have hne : ∀ hs zs : List String, (hs ≠ [] ∨ zs ≠ []) →
        (hs.isEmpty && zs.isEmpty) = false := by
      intro hs zs hz
      rcases hz with hz | hz
      · cases hs with
        | nil => exact absurd rfl hz
        | cons x xs => simp
      · cases zs with
        | nil => exact absurd rfl hz
        | cons x xs => simp
    simp [tierTakes, takes, hne _ _ e1, hne _ _ e2, hne _ _ e3, m1, m2, m3]

theorem C3_first_accepting_tier_witness :
    Dial ipv4Literal
      (serverDialer { plainConfig with
        filterZones1 := ["alpha.example"], filterZones2 := [".example.com."],
        filterHostnames3 := ["a.example.com"] })
      "a.example.com:443" = .ok [plainConfig.up3, plainConfig.up2] :=
  (C3_first_accepting_tier ipv4Literal
    { plainConfig with
      filterZones1 := ["alpha.example"], filterZones2 := [".example.com."],
      filterHostnames3 := ["a.example.com"] }
    "a.example.com:443" "a.example.com" "443" rfl (by decide)).1 2 (by decide) (by decide)
    (by decide) (by
      intro j hj1 hj2
      have hj : j = 1 := by omega
      subst hj
      decide)

/-- C3 as stated fails when "matches" is the membership test on the entries as
written. With no exclusion filter and tier 2 unfiltered: the IP literal `10.0.0.1`
equals a hostname of tier 1 and gets tier 2's chain; the host `example.com.` is tier
1's zone `example.com.` as written and gets tier 2's chain; and the host `example.com`
is neither the zone `.example.com` of tier 1 as written nor ends with a dot followed by
it, so tier 2 is the smallest tier that takes it, and it gets tier 1's chain. -/
theorem C3_counterexample :
    ("10.0.0.1" ∈
        ({ plainConfig with filterHostnames1 := ["10.0.0.1"] } : Config).filterHostnames1 ∧
      (∀ isIP : String → Bool, isIP "10.0.0.1" = true →
        Dial isIP (serverDialer { plainConfig with filterHostnames1 := ["10.0.0.1"] })
          "10.0.0.1:443" = .ok (tierChain plainConfig 2))) ∧
    (zoneContains "example.com." "example.com." = true ∧
      (∀ isIP : String → Bool, isIP "example.com." = false →
        Dial isIP (serverDialer { plainConfig with filterZones1 := ["example.com."] })
          "example.com.:443" = .ok (tierChain plainConfig 2))) ∧
    (zoneContains ".example.com" "example.com" = false ∧
      (∀ isIP : String → Bool, isIP "example.com" = false →
        Dial isIP (serverDialer { plainConfig with filterZones1 := [".example.com"] })
          "example.com:443" = .ok (tierChain plainConfig 1))) ∧
    tierChain plainConfig 2 ≠ tierChain plainConfig 1 := by
  refine ⟨⟨by decide, ?_⟩, ⟨by decide, ?_⟩, ⟨by decide, ?_⟩, by decide⟩
  · intro isIP hip
    rw [Dial_serverDialer isIP _ "10.0.0.1:443" "10.0.0.1" "443" rfl]
    simp only [filterMatches, usesBypass, hip, tierAccepts, accepts]
    rfl
  · intro isIP hip
    rw [Dial_serverDialer isIP _ "example.com.:443" "example.com." "443" rfl]
    simp only [filterMatches, usesBypass, hip, tierAccepts, accepts]
    rfl
  · intro isIP hip
    rw [Dial_serverDialer isIP _ "example.com:443" "example.com" "443" rfl]
    simp only [filterMatches, usesBypass, hip, tierAccepts, accepts]
    rfl

/-- C4 (as amended): with the filters of tiers 1, 2, 3 being the pairwise disjoint
zones `zoneA`, `zoneB`, `zoneC`, each taken as a plain domain (trailing dot cut, then
leading dot cut), and no exclusion filter, a destination host in `zoneB` that is not
an IP literal is tunnelled through upstream-3 and then upstream-2, in that order and
through nothing else, and an IP literal is dialled Direct; so the route holds tier 3's
upstream-3 as the first hop of tier 2's chain, and holds upstream-1 only when
upstream-1 is configured like upstream-3 or upstream-2. -/
theorem C4_zoneB_route (isIP : String → Bool) (c : Config) (zoneA zoneB zoneC : String)
    (addr h port : String)
    (hdisj : [zoneA, zoneB, zoneC].Pairwise
      (fun a b => ∀ x,
        ¬ (zoneContains (plainZone a) x = true ∧ zoneContains (plainZone b) x = true)))
    (hsp : SplitHostPort addr = .ok (h, port))
    (hB : zoneContains (plainZone zoneB) h = true) :
    (isIP h = false →
      Dial isIP
        (serverDialer { c with
          filterHostnames1 := [], filterZones1 := [zoneA],
          filterHostnames2 := [], filterZones2 := [zoneB],
          filterHostnames3 := [], filterZones3 := [zoneC],
          excludeHostnames := [], excludeZones := [] })
        addr = .ok [c.up3, c.up2]) ∧
    (isIP h = true →
      Dial isIP
        (serverDialer { c with
          filterHostnames1 := [], filterZones1 := [zoneA],
          filterHostnames2 := [], filterZones2 := [zoneB],
          filterHostnames3 := [], filterZones3 := [zoneC],
          excludeHostnames := [], excludeZones := [] })
        addr = .ok []) ∧
    (c.up1 ∈ [c.up3, c.up2] ↔ (c.up1 = c.up3 ∨ c.up1 = c.up2)) := by
  have hA : zoneContains (plainZone zoneA) h = false := by
    cases hAv : zoneContains (plainZone zoneA) h with
    | false => rfl
    | true =>
      simp only [List.pairwise_cons, List.mem_cons] at hdisj
      exact absurd ⟨hAv, hB⟩ (hdisj.1 zoneB (Or.inl rfl) h)
  refine ⟨?_, ?_, by simp⟩
  · intro hip
    rw [Dial_serverDialer_takes isIP _ addr h port hsp]
    simp [tierTakes, takes, matchesFilter, inMatchSet, hip, hA, hB, tierChain, Config.up3,
      Config.up2]
  · intro hip
    rw [Dial_serverDialer_takes isIP _ addr h port hsp]
    simp [tierTakes, takes, matchesFilter, inMatchSet, hip, tierChain]

theorem C4_zoneB_route_witness :
    Dial ipv4Literal
      (serverDialer { plainConfig with
        filterHostnames1 := [], filterZones1 := ["alpha.example."],
        filterHostnames2 := [], filterZones2 := [".beta.example"],
        filterHostnames3 := [], filterZones3 := ["gamma.example"],
        excludeHostnames := [], excludeZones := [] })
      "www.beta.example:443" = .ok [plainConfig.up3, plainConfig.up2] :=
  (C4_zoneB_route ipv4Literal plainConfig "alpha.example." ".beta.example" "gamma.example"
    "www.beta.example:443" "www.beta.example" "443"
    (by
      simp only [List.pairwise_cons, List.mem_cons, List.mem_singleton, List.not_mem_nil,
        forall_eq_or_imp, forall_eq, false_imp_iff, implies_true, List.Pairwise.nil, and_true]
      exact ⟨⟨zoneContains_disjoint _ _ (by decide) (by decide),
        zoneContains_disjoint _ _ (by decide) (by decide)⟩,
        zoneContains_disjoint _ _ (by decide) (by decide)⟩)
    rfl (by decide)).1 (by decide)

/-- C4 as stated fails: the zones `alpha.example`, `beta.example`, `gamma.example` are
pairwise disjoint, there is no exclusion filter, the host `www.beta.example` lies in
tier 2's zone, and its route starts with the hop through upstream-3. -/
theorem C4_counterexample :
    (∀ x, ¬ (zoneContains "alpha.example" x = true ∧ zoneContains "beta.example" x = true)) ∧
    (∀ x, ¬ (zoneContains "beta.example" x = true ∧ zoneContains "gamma.example" x = true)) ∧
    (∀ x, ¬ (zoneContains "alpha.example" x = true ∧ zoneContains "gamma.example" x = true)) ∧
    zoneContains "beta.example" "www.beta.example" = true ∧
    SplitHostPort "www.beta.example:443" = .ok ("www.beta.example", "443") ∧
    ipv4Literal "www.beta.example" = false ∧
    (∀ isIP : String → Bool, isIP "www.beta.example" = false →
      Dial isIP
        (serverDialer { plainConfig with
          filterZones1 := ["alpha.example"], filterZones2 := ["beta.example"],
          filterZones3 := ["gamma.example"] })
        "www.beta.example:443" = .ok [plainConfig.up3, plainConfig.up2]) ∧
    plainConfig.up3 ∈ [plainConfig.up3, plainConfig.up2] ∧
    plainConfig.up3 ≠ plainConfig.up2 ∧ plainConfig.up3 ≠ plainConfig.up1 := by
  refine ⟨zoneContains_disjoint _ _ (by decide) (by decide),
    zoneContains_disjoint _ _ (by decide) (by decide),
    zoneContains_disjoint _ _ (by decide) (by decide), by decide, rfl, by decide, ?_, by decide,
    by decide, by decide⟩
  intro isIP hip
  rw [Dial_serverDialer isIP _ "www.beta.example:443" "www.beta.example" "443" rfl]
  simp only [filterMatches, usesBypass, hip, tierAccepts, accepts]
  rfl

/-! ## The route chain against the layered construction -/

/-- One tier, for an address that need not split: the dial goes to `bypass` when the
tier takes the address, else it fails on an address that does not split and goes to
the default otherwise. -/
theorem Dial_tier_addr (isIP : String → Bool) (d b : Dialer) (hostnames zones : List String)
    (addr : String) :
    Dial isIP (if hostnames.length > 0 ∨ zones.length > 0 then
        (addRules (NewPerHost d b) hostnames zones).toDialer else b) addr
      = if takesAddr isIP hostnames zones addr then Dial isIP b addr
        else match SplitHostPort addr with
          | .ok _ => Dial isIP d addr
          | .error err => .error err := by
  by_cases hf : hostnames.length > 0 ∨ zones.length > 0
  · have hne : (hostnames.isEmpty && zones.isEmpty) = false := by
      rcases hf with h | h
      · cases hostnames with
        | nil => simp at h
        | cons x xs => simp
      · cases zones with
        | nil => simp at h
        | cons x xs => simp
    rw [if_pos hf, toDialer_addRules]
    cases hs : SplitHostPort addr with
    | error e => simp [Dial, hs, takesAddr, hne]
    | ok hp =>
      obtain ⟨host, port⟩ := hp
      have hm := filterMatches_eq_matchesFilter isIP hostnames zones host
      simp only [filterMatches] at hm
      simp only [Dial, hs, takesAddr, hne, Bool.false_or, hm]
  · have he : hostnames = [] ∧ zones = [] := by
      constructor
      · cases hostnames with
        | nil => rfl
        | cons x xs => exact absurd (Or.inl (by simp)) hf
      · cases zones with
        | nil => rfl
        | cons x xs => exact absurd (Or.inr (by simp)) hf
    rw [if_neg hf]
    simp [takesAddr, he.1, he.2]

/-- The tier-3 result dials an address through upstream-3 exactly when tier 3 takes
the address. -/
theorem Dial_dialer3_eq_iff (isIP : String → Bool) (c : Config) (addr : String) :
    Dial isIP (dialer3 c) addr = .ok [c.up3]
      ↔ takesAddr isIP c.filterHostnames3 c.filterZones3 addr = true := by
  unfold dialer3
  rw [Dial_tier_addr, Dial_dialerUpstream3]
  cases ht : takesAddr isIP c.filterHostnames3 c.filterZones3 addr with
  | true => simp
  | false =>
    cases hs : SplitHostPort addr with
    | error e => simp
    | ok hp => simp [Dial]

theorem Dial_dialer3_ne (isIP : String → Bool) (c : Config) (addr : String) :
    Dial isIP (dialer3 c) addr ≠ .ok [c.up3, c.up2] := by
  unfold dialer3
  rw [Dial_tier_addr, Dial_dialerUpstream3]
  cases ht : takesAddr isIP c.filterHostnames3 c.filterZones3 addr with
  | true => simp
  | false =>
    cases hs : SplitHostPort addr with
    | error e => simp
    | ok hp => simp [Dial]

/-- Tier 2's tunnel of the layered construction makes the hops upstream-3, upstream-2
exactly when tier 3 takes the address of upstream-2. -/
theorem Dial_specDialerUpstream2_eq_iff (isIP : String → Bool) (c : Config) (addr : String) :
    Dial isIP (specDialerUpstream2 c) addr = .ok [c.up3, c.up2]
      ↔ takesAddr isIP c.filterHostnames3 c.filterZones3 c.up2.forwardAddress = true := by
  rw [← Dial_dialer3_eq_iff, specDialerUpstream2, Dial_httpConnect]
  cases hd : Dial isIP (dialer3 c) c.up2.forwardAddress with
  | error e => simp
  | ok hops =>
    simp only [Except.ok.injEq]
    constructor
    · intro h
      have : hops ++ [c.up2] = [c.up3] ++ [c.up2] := by simpa using h
      exact List.append_cancel_right this
    · intro h
      rw [h]
      rfl

/-- The tier-2 result of the layered construction dials an address through
upstream-3, upstream-2 exactly when tier 2 takes the address and tier 3 takes the
address of upstream-2. -/
theorem Dial_specDialer2_eq_iff (isIP : String → Bool) (c : Config) (addr : String) :
    Dial isIP (specDialer2 c) addr = .ok [c.up3, c.up2]
      ↔ (takesAddr isIP c.filterHostnames2 c.filterZones2 addr = true ∧
          takesAddr isIP c.filterHostnames3 c.filterZones3 c.up2.forwardAddress = true) := by
  unfold specDialer2
  rw [Dial_tier_addr]
  cases ht : takesAddr isIP c.filterHostnames2 c.filterZones2 addr with
  | true => simp [Dial_specDialerUpstream2_eq_iff]
  | false =>
    cases hs : SplitHostPort addr with
    | error e => simp
    | ok hp => simp [Dial_dialer3_ne]

/-- Tier 1's tunnel of the layered construction makes the hops upstream-3,
upstream-2, upstream-1 exactly when tier 2 takes the address of upstream-1 and tier 3
takes the address of upstream-2. -/
theorem Dial_specDialerUpstream1_eq_iff (isIP : String → Bool) (c : Config) (addr : String) :
    Dial isIP (specDialerUpstream1 c) addr = .ok [c.up3, c.up2, c.up1]
      ↔ (takesAddr isIP c.filterHostnames2 c.filterZones2 c.up1.forwardAddress = true ∧
          takesAddr isIP c.filterHostnames3 c.filterZones3 c.up2.forwardAddress = true) := by
  rw [← Dial_specDialer2_eq_iff, specDialerUpstream1, Dial_httpConnect]
  cases hd : Dial isIP (specDialer2 c) c.up1.forwardAddress with
  | error e => simp
  | ok hops =>
    simp only [Except.ok.injEq]
    constructor
    · intro h
      have : hops ++ [c.up1] = [c.up3, c.up2] ++ [c.up1] := by simpa using h
      exact List.append_cancel_right this
    · intro h
      rw [h]
      rfl

/-- The route of the layered construction for a host. -/
theorem Dial_specServerDialer (isIP : String → Bool) (c : Config) (addr host port : String)
    (hsp : SplitHostPort addr = .ok (host, port)) :
    Dial isIP (specServerDialer c) addr
      = if matchesFilter isIP c.excludeHostnames c.excludeZones host then .ok []
        else if tierTakes isIP c 1 host then Dial isIP (specDialerUpstream1 c) addr
        else if tierTakes isIP c 2 host then Dial isIP (specDialerUpstream2 c) addr
        else if tierTakes isIP c 3 host then .ok [c.up3]
        else .ok [] := by
  have h3 : Dial isIP (dialer3 c) addr
      = if tierTakes isIP c 3 host then .ok [c.up3] else .ok [] := by
    unfold dialer3
    rw [Dial_tier isIP _ _ _ _ addr host port hsp, Dial_dialerUpstream3, accepts_eq_takes]
    simp only [tierTakes, Dial]
  have h2 : Dial isIP (specDialer2 c) addr
      = if tierTakes isIP c 2 host then Dial isIP (specDialerUpstream2 c) addr
        else if tierTakes isIP c 3 host then .ok [c.up3] else .ok [] := by
    unfold specDialer2
    rw [Dial_tier isIP _ _ _ _ addr host port hsp, h3, accepts_eq_takes]
    simp only [tierTakes]
  have h1 : Dial isIP (specDialer1 c) addr
      = if tierTakes isIP c 1 host then Dial isIP (specDialerUpstream1 c) addr
        else if tierTakes isIP c 2 host then Dial isIP (specDialerUpstream2 c) addr
        else if tierTakes isIP c 3 host then .ok [c.up3] else .ok [] := by
    unfold specDialer1
    rw [Dial_tier isIP _ _ _ _ addr host port hsp, h2, accepts_eq_takes]
    simp only [tierTakes]
  unfold specServerDialer
  by_cases hx : c.excludeHostnames.length > 0 ∨ c.excludeZones.length > 0
  · rw [if_pos hx, toDialer_addRules]
    have hm := filterMatches_eq_matchesFilter isIP c.excludeHostnames c.excludeZones host
    simp only [filterMatches] at hm
    simp only [Dial, hsp, h1, hm]
  · have he : c.excludeHostnames = [] ∧ c.excludeZones = [] := by
      constructor
      · cases hh : c.excludeHostnames with
        | nil => rfl
        | cons x xs => exact absurd (Or.inl (by simp [hh])) hx
      · cases hh : c.excludeZones with
        | nil => rfl
        | cons x xs => exact absurd (Or.inr (by simp [hh])) hx
    rw [if_neg hx, h1, he.1, he.2]
    simp [matchesFilter, inMatchSet]

/-- C9 (as amended): in `main` tier 2's tunnel reaches upstream-2 through
`dialerUpstream3`, the unfiltered tunnel through upstream-3, and tier 1's tunnel
reaches upstream-1 through `dialerUpstream2`, not through the tier results `dialer3`
and `dialer2`. When tiers 2 and 3 have no filter these coincide and `main` builds the
same dialer as the construction that layers each tunnel on the previous tier's result.
In general, for a destination `host:port`, the two constructions give the same route
exactly when the host is excluded, or tiers 1 and 2 do not take it, or tier 2 takes it
(tier 1 not) and tier 3 takes the address of upstream-2, or tier 1 takes it, tier 2
takes the address of upstream-1 and tier 3 takes the address of upstream-2. For a
destination that does not split into host and port, both dials fail alike when there
is an exclusion filter or tier 1 has a filter, and otherwise the routes are the same
exactly when tier 2 takes the address of upstream-1 and tier 3 that of upstream-2. -/
theorem C9_layered_on_unfiltered_tunnels :
    (∀ c : Config,
      dialerUpstream2 c = .httpConnect (dialerUpstream3 c) c.up2 ∧
      dialerUpstream1 c = .httpConnect (dialerUpstream2 c) c.up1) ∧
    (∀ c : Config,
      c.filterHostnames2 = [] → c.filterZones2 = [] →
      c.filterHostnames3 = [] → c.filterZones3 = [] →
      dialer3 c = dialerUpstream3 c ∧ dialer2 c = dialerUpstream2 c ∧
      serverDialer c = specServerDialer c ∧
      ∀ (isIP : String → Bool) (addr : String),
        Dial isIP (serverDialer c) addr = Dial isIP (specServerDialer c) addr) ∧
    (∀ (isIP : String → Bool) (c : Config) (addr h port : String),
      SplitHostPort addr = .ok (h, port) →
      (Dial isIP (serverDialer c) addr = Dial isIP (specServerDialer c) addr ↔
        (matchesFilter isIP c.excludeHostnames c.excludeZones h = true ∨
          (tierTakes isIP c 1 h = false ∧ tierTakes isIP c 2 h = false) ∨
          (tierTakes isIP c 1 h = false ∧ tierTakes isIP c 2 h = true ∧
            takesAddr isIP c.filterHostnames3 c.filterZones3 c.up2.forwardAddress = true) ∨
          (tierTakes isIP c 1 h = true ∧
            takesAddr isIP c.filterHostnames2 c.filterZones2 c.up1.forwardAddress = true ∧
            takesAddr isIP c.filterHostnames3 c.filterZones3 c.up2.forwardAddress = true)))) ∧
    (∀ (isIP : String → Bool) (c : Config) (addr : String) (err : AddrError),
      SplitHostPort addr = .error err →
      (Dial isIP (serverDialer c) addr = Dial isIP (specServerDialer c) addr ↔
        ((c.excludeHostnames.length > 0 ∨ c.excludeZones.length > 0) ∨
          (c.filterHostnames1.length > 0 ∨ c.filterZones1.length > 0) ∨
          (takesAddr isIP c.filterHostnames2 c.filterZones2 c.up1.forwardAddress = true ∧
            takesAddr isIP c.filterHostnames3 c.filterZones3 c.up2.forwardAddress = true)))) := by
  refine ⟨fun c => ⟨rfl, rfl⟩, ?_, ?_, ?_⟩
  · intro c hh2 hz2 hh3 hz3
    have e3 : dialer3 c = dialerUpstream3 c := by simp [dialer3, hh3, hz3]
    have e2 : dialer2 c = dialerUpstream2 c := by simp [dialer2, hh2, hz2]
    have s2 : specDialer2 c = dialerUpstream2 c := by
      simp [specDialer2, specDialerUpstream2, hh2, hz2, e3, dialerUpstream2]
    have s1 : specDialer1 c = dialer1 c := by
      simp [specDialer1, specDialerUpstream1, s2, dialer1, e2, dialerUpstream1]
    have hs : serverDialer c = specServerDialer c := by
      simp [serverDialer, specServerDialer, s1]
    exact ⟨e3, e2, hs, fun isIP addr => by rw [hs]⟩
  · intro isIP c addr h port hsp
    rw [Dial_serverDialer_takes isIP c addr h port hsp,
      Dial_specServerDialer isIP c addr h port hsp]
    cases hex : matchesFilter isIP c.excludeHostnames c.excludeZones h with
    | true => simp
    | false =>
      cases ht1 : tierTakes isIP c 1 h with
      | true =>
        have hiff := Dial_specDialerUpstream1_eq_iff isIP c addr
        simp only [Bool.false_eq_true, if_false, if_true, tierChain, false_or, false_and,
          true_and, and_false, or_false]
        rw [eq_comm, hiff]
        simp
      | false =>
        cases ht2 : tierTakes isIP c 2 h with
        | true =>
          have hiff := Dial_specDialerUpstream2_eq_iff isIP c addr
          simp only [Bool.false_eq_true, if_false, if_true, tierChain, false_or, false_and,
            true_and, and_false, or_false]
          rw [eq_comm, hiff]
          simp
        | false =>
          simp only [Bool.false_eq_true, if_false, false_or, and_self, true_or, iff_true]
          split <;> rfl
  · intro isIP c addr err hsp
    unfold serverDialer specServerDialer
    by_cases hx : c.excludeHostnames.length > 0 ∨ c.excludeZones.length > 0
    · rw [if_pos hx, if_pos hx, toDialer_addRules, toDialer_addRules]
      simp [Dial, hsp, hx]
    · rw [if_neg hx, if_neg hx]
      unfold dialer1 specDialer1
      by_cases h1 : c.filterHostnames1.length > 0 ∨ c.filterZones1.length > 0
      · rw [if_pos h1, if_pos h1, toDialer_addRules, toDialer_addRules]
        simp [Dial, hsp, h1]
      · rw [if_neg h1, if_neg h1, Dial_dialerUpstream1, eq_comm,
          Dial_specDialerUpstream1_eq_iff]
        simp only [hx, h1, false_or]

theorem C9_layered_on_unfiltered_tunnels_witness :
    serverDialer { plainConfig with filterZones1 := ["alpha.example"] }
      = specServerDialer { plainConfig with filterZones1 := ["alpha.example"] } ∧
    Dial ipv4Literal
        (serverDialer { plainConfig with
          filterZones2 := ["beta.example", "proxy1.example"], filterZones3 := ["example"] })
        "www.example.org:443"
      = Dial ipv4Literal
        (specServerDialer { plainConfig with
          filterZones2 := ["beta.example", "proxy1.example"], filterZones3 := ["example"] })
        "www.example.org:443" :=
  ⟨(C9_layered_on_unfiltered_tunnels.2.1 { plainConfig with filterZones1 := ["alpha.example"] }
      rfl rfl rfl rfl).2.2.1,
    ((C9_layered_on_unfiltered_tunnels.2.2.1 ipv4Literal
      { plainConfig with
        filterZones2 := ["beta.example", "proxy1.example"], filterZones3 := ["example"] }
      "www.example.org:443" "www.example.org" "443" rfl).2
      (Or.inr (Or.inr (Or.inr ⟨by decide, by decide, by decide⟩))))⟩

/-- C9 as stated fails. With only tier 3 filtered, on zone `gamma.example`, `main`
routes `www.example.org` through upstream-3, upstream-2, upstream-1, while the
construction layered on the tier results reaches upstream-2 through `dialer3`, which
dials the proxy's own address Direct, and routes through upstream-2, upstream-1. With
only tier 2 filtered, on zone `beta.example`, `main` gives the same three hops and the
layered construction gives upstream-3, upstream-1. -/
theorem C9_counterexample :
    (∀ isIP : String → Bool,
      Dial isIP (serverDialer { plainConfig with filterZones3 := ["gamma.example"] })
        "www.example.org:443" = .ok [plainConfig.up3, plainConfig.up2, plainConfig.up1] ∧
      Dial isIP (specServerDialer { plainConfig with filterZones3 := ["gamma.example"] })
        "www.example.org:443" = .ok [plainConfig.up2, plainConfig.up1]) ∧
    (∀ isIP : String → Bool,
      Dial isIP (serverDialer { plainConfig with filterZones2 := ["beta.example"] })
        "www.example.org:443" = .ok [plainConfig.up3, plainConfig.up2, plainConfig.up1] ∧
      Dial isIP (specServerDialer { plainConfig with filterZones2 := ["beta.example"] })
        "www.example.org:443" = .ok [plainConfig.up3, plainConfig.up1]) ∧
    [plainConfig.up3, plainConfig.up2, plainConfig.up1] ≠ [plainConfig.up2, plainConfig.up1] ∧
    [plainConfig.up3, plainConfig.up2, plainConfig.up1] ≠ [plainConfig.up3, plainConfig.up1] := by
  refine ⟨fun isIP => ⟨rfl, ?_⟩, fun isIP => ⟨rfl, ?_⟩, by decide, by decide⟩
  · have hd : specServerDialer { plainConfig with filterZones3 := ["gamma.example"] }
        = .httpConnect (.httpConnect
            (.perHost .direct (dialerUpstream3 plainConfig) [".gamma.example"] [])
            ⟨"proxy2.example:8080", "user2", "pass2", "US"⟩)
            ⟨"proxy1.example:8080", "user1", "pass1", "US"⟩ := rfl
    have h3 : Dial isIP (.perHost .direct (dialerUpstream3 plainConfig) [".gamma.example"] [])
        "proxy2.example:8080" = .ok [] := by
      rw [Dial_perHost_default isIP _ _ _ _ "proxy2.example:8080" "proxy2.example" "8080" rfl
        (usesBypass_false_of_nomatch isIP _ _ _ (by decide))]
      rfl
    rw [hd, Dial_httpConnect, Dial_httpConnect]
    simp only [h3]
    rfl
  · have hd : specServerDialer { plainConfig with filterZones2 := ["beta.example"] }
        = .httpConnect
            (.perHost (dialerUpstream3 plainConfig) (dialerUpstream2 plainConfig)
              [".beta.example"] [])
            ⟨"proxy1.example:8080", "user1", "pass1", "US"⟩ := rfl
    have h2 : Dial isIP
        (.perHost (dialerUpstream3 plainConfig) (dialerUpstream2 plainConfig)
          [".beta.example"] [])
        "proxy1.example:8080" = .ok [plainConfig.up3] := by
      rw [Dial_perHost_default isIP _ _ _ _ "proxy1.example:8080" "proxy1.example" "8080" rfl
        (usesBypass_false_of_nomatch isIP _ _ _ (by decide))]
      exact Dial_dialerUpstream3 isIP plainConfig _
    rw [hd, Dial_httpConnect]
    simp only [h2]
    rfl

end Forwarder
